import Mathlib

/-!
Verification of the post-detection reasoning and safety pipeline of the
makani-yafhamuni repository. The TypeScript sources under
`src/app/api/analyze/` and the API route handler are shallowly embedded:
strings are Lean strings, JS numbers carrying probabilities/confidences are
rationals, ages are naturals, and the `Math.random()` shuffles of the
activity builder are modelled by quantifying over the shuffled orders.
JS reference equality on freshly-constructed element records is modelled by
structural equality (the pipeline never constructs two structurally equal
distinct elements, since `analyzeEnvironment` deduplicates labels).
-/

/- ===== JS string primitives (structural, kernel-computable) ===== -/

/-- Whitespace class used by the JS regexes `\s` (ASCII part; the labels the
pipeline handles contain only spaces). -/
def jsIsWs (c : Char) : Bool :=
  decide (c = ' ' ∨ c = '\t' ∨ c = '\n' ∨ c = '\r' ∨ c = '\x0b' ∨ c = '\x0c')

/-- JS `s.split(',')[0]`: the part of the string before the first comma. -/
def jsFirstCommaSeg (s : String) : String :=
  ⟨s.data.takeWhile (fun c => decide (c ≠ ','))⟩

/-- JS `s.trim()`. -/
def jsTrim (s : String) : String :=
  ⟨((s.data.dropWhile jsIsWs).reverse.dropWhile jsIsWs).reverse⟩

/-- JS `s.toLowerCase()` (ASCII). -/
def jsToLower (s : String) : String := ⟨s.data.map Char.toLower⟩

/-- Replaces each maximal whitespace run by a single `repl` character
(the Boolean argument records whether the previous character was whitespace).
Models JS `s.replace(/\s+/g, repl)`. -/
def collapseWsAux (repl : Char) : Bool → List Char → List Char
  | _, [] => []
  | prevWs, c :: cs =>
    if jsIsWs c then
      (if prevWs then collapseWsAux repl true cs else repl :: collapseWsAux repl true cs)
    else c :: collapseWsAux repl false cs

/-- JS `s.replace(/\s+/g, repl)` for a one-character replacement. -/
def jsCollapseWs (repl : Char) (s : String) : String := ⟨collapseWsAux repl false s.data⟩

/-- JS `s.replace(/\s+/g, '')`. -/
def jsRemoveAllWs (s : String) : String := ⟨s.data.filter (fun c => !(jsIsWs c))⟩

/-- JS `s.replace(/t/g, '')` for a one-character pattern. -/
def jsRemoveAll (t : Char) (s : String) : String :=
  ⟨s.data.filter (fun c => decide (c ≠ t))⟩

/-- Removes the first occurrence of a character; models JS
`s.replace('_', '')` (a string pattern replaces only the first occurrence). -/
def removeFirstAux (t : Char) : List Char → List Char
  | [] => []
  | c :: cs => if c = t then cs else c :: removeFirstAux t cs

/-- JS `s.replace('t', '')` (first occurrence only). -/
def jsRemoveFirst (t : Char) (s : String) : String := ⟨removeFirstAux t s.data⟩

/-- JS `s.replace(/t/g, r)` for one-character pattern and replacement. -/
def jsReplaceAll (t r : Char) (s : String) : String :=
  ⟨s.data.map (fun c => if c = t then r else c)⟩

/-- Checks whether `needle` occurs at the start of the list. -/
def segAtStart : List Char → List Char → Bool
  | [], _ => true
  | _ :: _, [] => false
  | a :: as, b :: bs => if a = b then segAtStart as bs else false

/-- Checks whether `needle` occurs contiguously anywhere in the list. -/
def segSomewhere (needle : List Char) : List Char → Bool
  | [] => needle.isEmpty
  | c :: t => segAtStart needle (c :: t) || segSomewhere needle t

/-- JS `s.includes(sub)`. -/
def jsIncludes (s sub : String) : Bool := segSomewhere sub.data s.data

/-- First whitespace-separated token; models JS `s.split(/\s+/)[0]` on
strings without leading whitespace (all call sites pass trimmed strings). -/
def firstToken (s : String) : String := ⟨s.data.takeWhile (fun c => !(jsIsWs c))⟩

/-- First segment before a space; models JS `s.split(' ')[0]`. -/
def firstSpaceSeg (s : String) : String := ⟨s.data.takeWhile (fun c => decide (c ≠ ' '))⟩

/-- JS `[...new Set(l)]`: deduplication keeping first occurrences in order. -/
def jsDedupAux {α : Type} [DecidableEq α] : List α → List α → List α
  | _, [] => []
  | seen, x :: xs => if x ∈ seen then jsDedupAux seen xs else x :: jsDedupAux (seen ++ [x]) xs

/-- JS `[...new Set(l)]`. -/
def jsDedupList {α : Type} [DecidableEq α] (l : List α) : List α := jsDedupAux [] l

/-- JS `Math.round(q * 100) / 100` (round half toward positive infinity). -/
def jsRound2 (q : ℚ) : ℚ := ((⌊q * 100 + 1/2⌋ : ℤ) : ℚ) / 100

/- ===== Data model (environment.ts) ===== -/

/-- The six therapeutic focuses (`TherapeuticFocus` union in environment.ts). -/
inductive TherapeuticFocus
  | sensory_regulation
  | motor_planning
  | executive_function
  | fine_motor
  | gross_motor
  | bilateral_coordination
deriving DecidableEq

/-- The TS string literal of each focus (used where the code takes
`focus.length` or builds `label-focus` keys). -/
def focusName : TherapeuticFocus → String
  | .sensory_regulation => "sensory_regulation"
  | .motor_planning => "motor_planning"
  | .executive_function => "executive_function"
  | .fine_motor => "fine_motor"
  | .gross_motor => "gross_motor"
  | .bilateral_coordination => "bilateral_coordination"

/-- Spatial position values; TS value `'open'` is a Lean keyword and is
rendered as `openArea`. -/
inductive ElemPosition
  | central | corner | against_wall | edge | openArea
deriving DecidableEq

/-- Height values of `EnvironmentElement`. -/
inductive ElemHeight
  | floor | low | mid | table | elevated
deriving DecidableEq

/-- Stability values of `EnvironmentElement`. -/
inductive ElemStability
  | stable | mobile | fixed
deriving DecidableEq

/-- Surrounding-space values of `EnvironmentElement`. -/
inductive ElemSpace
  | spacious | moderate | constrained
deriving DecidableEq

/-- Texture values of `EnvironmentElement`. -/
inductive ElemTexture
  | soft | hard | mixed | smooth | unknown
deriving DecidableEq

/-- Sensory channels of `EnvironmentElement`. -/
inductive SensoryChannel
  | tactile | visual | proprioceptive | vestibular
deriving DecidableEq

/- ===== Safety data model (safety-validation.ts) ===== -/

/-- Environmental object classification for safety. -/
inductive ObjectSafetyClass
  | fixed_heavy_furniture | large_movable | small_manipulable
  | elevated_unstable | floor_safe
deriving DecidableEq

/-- Actions that must never be suggested for heavy/fixed objects. -/
inductive ForbiddenAction
  | lift | drag | push | climb_unstable | jump_from_height | high_force
deriving DecidableEq

/-- Safe alternatives when object is heavy or fixed. -/
inductive SafeActionHint
  | crawl_around | navigate_between | reach_over
  | use_cushions_or_floor | supported_weight_bearing
deriving DecidableEq

/-- Safety metadata attached by the safety-validation layer. -/
structure SafetyMetadata where
  classes : List ObjectSafetyClass
  forbiddenActions : List ForbiddenAction
  safeActionHints : List SafeActionHint
  useSafeAlternativesOnly : Bool
deriving DecidableEq

/-- The central entity of environment.ts. The optional `safetyAttached` field
models the mutable `_safety` field set by `enrichElementsWithSafety`. -/
structure EnvironmentElement where
  objectLabel : String
  position : ElemPosition
  height : ElemHeight
  stability : ElemStability
  space : ElemSpace
  texture : ElemTexture
  motor : List TherapeuticFocus
  sensory : List SensoryChannel
  risks : List String
  safetyAttached : Option SafetyMetadata := none
deriving DecidableEq

/-- ActivityCandidate shape shared by environment.ts / safety-validation.ts /
refinement.ts. -/
structure ActivityCandidate where
  objectLabel : String
  therapeuticFocus : TherapeuticFocus
  element : EnvironmentElement
deriving DecidableEq

/- ===== environment.ts lookup tables ===== -/

/-- HEIGHT_MAP of environment.ts (exact-key object lookup). -/
def HEIGHT_MAP : List (String × ElemHeight) :=
  [("couch", .low), ("sofa", .low), ("chair", .mid), ("table", .table), ("desk", .table),
   ("bed", .low), ("bench", .mid), ("stool", .mid), ("stairs", .elevated), ("step", .mid),
   ("ball", .floor), ("carpet", .floor), ("rug", .floor), ("floor", .floor),
   ("pillow", .low), ("blanket", .low), ("lamp", .table), ("book", .table),
   ("door", .elevated), ("window", .elevated), ("wall", .elevated)]

/-- STABILITY_MAP of environment.ts. -/
def STABILITY_MAP : List (String × ElemStability) :=
  [("couch", .stable), ("sofa", .stable), ("chair", .stable), ("table", .stable),
   ("desk", .stable), ("bed", .stable), ("bench", .stable), ("stairs", .fixed),
   ("ball", .mobile), ("carpet", .stable), ("rug", .stable), ("floor", .fixed),
   ("pillow", .mobile), ("blanket", .mobile), ("bike", .mobile), ("bicycle", .mobile)]

/-- TEXTURE_MAP of environment.ts. -/
def TEXTURE_MAP : List (String × ElemTexture) :=
  [("couch", .soft), ("sofa", .soft), ("pillow", .soft), ("blanket", .soft),
   ("carpet", .soft), ("rug", .soft), ("ball", .smooth), ("table", .hard),
   ("chair", .hard), ("desk", .hard), ("floor", .hard), ("wall", .hard)]

/-- MOTOR_MAP of environment.ts (substring-matched entries, in source order). -/
def MOTOR_MAP : List (String × List TherapeuticFocus) :=
  [("couch", [.gross_motor, .sensory_regulation]),
   ("sofa", [.gross_motor, .sensory_regulation]),
   ("chair", [.gross_motor, .fine_motor, .bilateral_coordination]),
   ("table", [.fine_motor, .bilateral_coordination, .executive_function]),
   ("desk", [.fine_motor, .executive_function]),
   ("ball", [.gross_motor, .bilateral_coordination, .motor_planning]),
   ("stairs", [.gross_motor, .motor_planning]),
   ("carpet", [.gross_motor, .sensory_regulation, .motor_planning]),
   ("rug", [.gross_motor, .sensory_regulation]),
   ("bed", [.gross_motor, .sensory_regulation]),
   ("pillow", [.fine_motor, .sensory_regulation, .bilateral_coordination]),
   ("blanket", [.bilateral_coordination, .fine_motor, .sensory_regulation])]

/-- RISK_MAP of environment.ts (Arabic risk phrases). -/
def RISK_MAP : List (String × List String) :=
  [("stairs", ["خطر السقوط على الدرج"]),
   ("step", ["احتمال التعثر"]),
   ("bike", ["حركة الدراجة"]),
   ("bicycle", ["حركة الدراجة"]),
   ("lamp", ["الحرارة أو السلك"]),
   ("window", ["القرب من النافذة"]),
   ("door", ["حركة الباب"])]

/-- POSITION_OPTIONS of environment.ts. -/
def POSITION_OPTIONS : List ElemPosition :=
  [.central, .against_wall, .corner, .edge, .openArea]

/-- normalizeLabel of environment.ts:
`label.split(',')[0].trim().toLowerCase().replace(/\s+/g, '_')`. -/
def normalizeLabelEnv (label : String) : String :=
  jsCollapseWs '_' (jsToLower (jsTrim (jsFirstCommaSeg label)))

/-- ALL_THERAPEUTIC_FOCUSES of environment.ts. -/
def ALL_THERAPEUTIC_FOCUSES : List TherapeuticFocus :=
  [.sensory_regulation, .motor_planning, .executive_function,
   .fine_motor, .gross_motor, .bilateral_coordination]

/-- getMotorForLabel of environment.ts; note the JS `.replace('_', '')`
removes only the first underscore. -/
def getMotorForLabel (label : String) : List TherapeuticFocus :=
  let base := jsRemoveFirst '_' (normalizeLabelEnv label)
  match MOTOR_MAP.find? (fun e => jsIncludes base e.1 || jsIncludes e.1 base) with
  | some e => e.2
  | none => [.fine_motor, .gross_motor, .bilateral_coordination]

/-- getRisksForLabel of environment.ts. -/
def getRisksForLabel (label : String) : List String :=
  let base := normalizeLabelEnv label
  match RISK_MAP.find? (fun e => jsIncludes base e.1 || jsIncludes e.1 base) with
  | some e => e.2
  | none => []

/-- Loop body of analyzeEnvironment: walks the (already truncated) label list
carrying the dedup key set and the number of elements built so far (which in
the source equals `positionIndex`, as both are incremented together). -/
def analyzeEnvGo : List String → List String → Nat → List EnvironmentElement
  | [], _, _ => []
  | raw :: rest, seen, count =>
    let base := jsToLower (jsTrim (jsFirstCommaSeg raw))
    let key := jsRemoveAllWs base
    if key ∈ seen then analyzeEnvGo rest seen count
    else
      let height := match List.lookup base HEIGHT_MAP with
        | some h => h
        | none => if jsIncludes base "ball" || jsIncludes base "block" then .floor else .mid
      let stability := (List.lookup base STABILITY_MAP).getD .stable
      let texture := (List.lookup base TEXTURE_MAP).getD .unknown
      let motor := getMotorForLabel raw
      let risks := getRisksForLabel raw
      let sensory0 : List SensoryChannel := [.tactile, .visual]
      let sensory1 := if height = .elevated ∨ jsIncludes base "stairs" = true ∨ jsIncludes base "step" = true
        then sensory0 ++ [.vestibular, .proprioceptive] else sensory0
      let sensory2 := if texture ≠ .unknown then sensory1 ++ [.tactile] else sensory1
      let space : ElemSpace := if count < 2 then .spacious else if count < 4 then .moderate else .constrained
      let position := POSITION_OPTIONS.getD (count % POSITION_OPTIONS.length) .central
      { objectLabel := raw, position := position, height := height, stability := stability,
        space := space, texture := texture, motor := motor, sensory := sensory2,
        risks := risks } :: analyzeEnvGo rest (seen ++ [key]) (count + 1)

/-- analyzeEnvironment of environment.ts (MAX_ENVIRONMENT_ELEMENTS = 5). -/
def analyzeEnvironment (labels : List String) : List EnvironmentElement :=
  analyzeEnvGo (labels.take 5) [] 0

/- ===== safety-validation.ts ===== -/

/-- FIXED_HEAVY_LABELS of safety-validation.ts. -/
def FIXED_HEAVY_LABELS : List String :=
  ["sofa", "couch", "bed", "wardrobe", "bookcase", "cabinet", "dining table",
   "table", "desk", "stairs", "door", "wall", "refrigerator", "bathtub", "tub"]

/-- LARGE_MOVABLE_LABELS of safety-validation.ts. -/
def LARGE_MOVABLE_LABELS : List String := ["bench", "ottoman", "mattress", "coffee table"]

/-- SMALL_MANIPULABLE_LABELS of safety-validation.ts. -/
def SMALL_MANIPULABLE_LABELS : List String :=
  ["pillow", "blanket", "ball", "book", "lamp", "cushion", "box", "basket",
   "toy", "doll", "block", "cube", "remote", "phone", "cup", "plate", "bowl"]

/-- ELEVATED_UNSTABLE_LABELS of safety-validation.ts. -/
def ELEVATED_UNSTABLE_LABELS : List String := ["stairs", "step", "stool", "window", "lamp"]

/-- normalizeForSafety of safety-validation.ts: first comma segment, trimmed,
lowercased, whitespace runs replaced by underscores, then all hyphens removed
(the hyphen replacement uses a global regex). -/
def normalizeForSafety (label : String) : String :=
  jsRemoveAll '-' (jsCollapseWs '_' (jsToLower (jsTrim (jsFirstCommaSeg label))))

/-- labelMatches of safety-validation.ts. -/
def labelMatches (label : String) (keys : List String) : Bool :=
  let base := normalizeForSafety label
  let normalized := jsRemoveAll '_' base
  keys.any (fun key =>
    let k := jsRemoveAllWs key
    jsIncludes normalized k || jsIncludes k normalized)

/-- classifyElementForSafety of safety-validation.ts. -/
def classifyElementForSafety (element : EnvironmentElement) : SafetyMetadata :=
  let label := element.objectLabel
  let base := normalizeForSafety label
  let heavy := (labelMatches label FIXED_HEAVY_LABELS || decide (element.stability = .fixed)) &&
    (jsIncludes base "sofa" || jsIncludes base "couch" || jsIncludes base "bed" ||
     jsIncludes base "wardrobe" || jsIncludes base "bookcase" || jsIncludes base "table" ||
     jsIncludes base "desk" || jsIncludes base "stairs" || jsIncludes base "door" ||
     jsIncludes base "wall" || jsIncludes base "refrigerator" || jsIncludes base "tub")
  let classes1 : List ObjectSafetyClass := if heavy then [.fixed_heavy_furniture] else []
  let forbidden1 : List ForbiddenAction := if heavy then [.lift, .drag, .push, .high_force] else []
  let hints1 : List SafeActionHint := if heavy then
    [.crawl_around, .navigate_between, .reach_over, .use_cushions_or_floor, .supported_weight_bearing] else []
  let largeMovable := labelMatches label LARGE_MOVABLE_LABELS &&
    !(decide (ObjectSafetyClass.fixed_heavy_furniture ∈ classes1))
  let classes2 := classes1 ++ (if largeMovable then [ObjectSafetyClass.large_movable] else [])
  let forbidden2 := forbidden1 ++
    (if largeMovable then [ForbiddenAction.lift, .drag, .push, .high_force] else [])
  let hints2 := hints1 ++ (if largeMovable then
    [SafeActionHint.crawl_around, .navigate_between, .reach_over, .use_cushions_or_floor,
     .supported_weight_bearing] else [])
  let small := labelMatches label SMALL_MANIPULABLE_LABELS
  let classes3 := classes2 ++ (if small then [ObjectSafetyClass.small_manipulable] else [])
  let elevatedFlag := decide (element.height = .elevated) || labelMatches label ELEVATED_UNSTABLE_LABELS
  let classes4 := classes3 ++ (if elevatedFlag then [ObjectSafetyClass.elevated_unstable] else [])
  let forbidden3 := forbidden2 ++
    (if elevatedFlag then [ForbiddenAction.climb_unstable, .jump_from_height] else [])
  let hints3 := if elevatedFlag ∧ hints2 = [] then
    hints2 ++ [SafeActionHint.navigate_between, .reach_over, .supported_weight_bearing] else hints2
  let floorSafe := decide (element.height = .floor) ||
    labelMatches label ["carpet", "rug", "floor", "ball"]
  let classes5 := classes4 ++ (if floorSafe then [ObjectSafetyClass.floor_safe] else [])
  let classes6 := if classes5 = [] then [ObjectSafetyClass.small_manipulable] else classes5
  let useSafe := decide (ObjectSafetyClass.fixed_heavy_furniture ∈ classes6) ||
    decide (ObjectSafetyClass.large_movable ∈ classes6)
  { classes := classes6, forbiddenActions := jsDedupList forbidden3,
    safeActionHints := jsDedupList hints3, useSafeAlternativesOnly := useSafe }

/-- Strength-demand tiers of AgeFeasibility. -/
inductive StrengthDemand
  | minimal | light | moderate | full
deriving DecidableEq

/-- Balance-complexity tiers of AgeFeasibility. -/
inductive BalanceComplexity
  | static_only | simple_dynamic | moderate_dynamic | complex
deriving DecidableEq

/-- Motor-planning-load tiers of AgeFeasibility. -/
inductive MotorPlanningLoad
  | single_step | two_steps | three_steps | multi_step
deriving DecidableEq

/-- Age-adjusted feasibility constraints. -/
structure AgeFeasibility where
  maxStrengthDemand : StrengthDemand
  maxBalanceComplexity : BalanceComplexity
  maxMotorPlanningLoad : MotorPlanningLoad
  allowElevatedSurfaces : Bool
  allowUnstableSurfaces : Bool
deriving DecidableEq

/-- getAgeFeasibility of safety-validation.ts. -/
def getAgeFeasibility (age : Nat) : AgeFeasibility :=
  if age < 3 then
    { maxStrengthDemand := .minimal, maxBalanceComplexity := .static_only,
      maxMotorPlanningLoad := .single_step, allowElevatedSurfaces := false,
      allowUnstableSurfaces := false }
  else if age < 5 then
    { maxStrengthDemand := .light, maxBalanceComplexity := .simple_dynamic,
      maxMotorPlanningLoad := .two_steps, allowElevatedSurfaces := false,
      allowUnstableSurfaces := false }
  else if age < 8 then
    { maxStrengthDemand := .moderate, maxBalanceComplexity := .moderate_dynamic,
      maxMotorPlanningLoad := .three_steps, allowElevatedSurfaces := false,
      allowUnstableSurfaces := false }
  else
    { maxStrengthDemand := .full, maxBalanceComplexity := .complex,
      maxMotorPlanningLoad := .multi_step, allowElevatedSurfaces := true,
      allowUnstableSurfaces := false }

/-- FOCUS_IMPLIES_FORCE of safety-validation.ts (all six keys are present in
the source record, so the lookup is total). -/
def focusImpliesForce : TherapeuticFocus → Bool
  | .motor_planning => true
  | .fine_motor => true
  | .bilateral_coordination => true
  | .executive_function => true
  | .gross_motor => false
  | .sensory_regulation => false

/-- isActivitySafe of safety-validation.ts (the objectLabel and element
arguments are taken but unused by the source, as here). -/
def isActivitySafe (_objectLabel : String) (therapeuticFocus : TherapeuticFocus)
    (_element : EnvironmentElement) (age : Nat) (safetyMeta : SafetyMetadata) : Bool :=
  let feasibility := getAgeFeasibility age
  if safetyMeta.useSafeAlternativesOnly = true ∧ focusImpliesForce therapeuticFocus = true then
    false
  else if ObjectSafetyClass.elevated_unstable ∈ safetyMeta.classes ∧
      ((feasibility.allowElevatedSurfaces = false ∧
        (therapeuticFocus = .gross_motor ∨ therapeuticFocus = .motor_planning)) ∨
       (ForbiddenAction.climb_unstable ∈ safetyMeta.forbiddenActions ∧
        therapeuticFocus = .gross_motor)) then
    false
  else true

/-- enrichElementsWithSafety of safety-validation.ts: the source mutates each
element's `_safety` field; modelled as a map producing updated records. -/
def enrichElementsWithSafety (elements : List EnvironmentElement) : List EnvironmentElement :=
  elements.map (fun el => { el with safetyAttached := some (classifyElementForSafety el) })

/-- getSafetyMetadata of safety-validation.ts (on a present element). -/
def getSafetyMetadata (element : EnvironmentElement) : Option SafetyMetadata :=
  element.safetyAttached

/-- JS truthiness of `meta?.useSafeAlternativesOnly` for a present element. -/
def useSafeAltOf (element : EnvironmentElement) : Bool :=
  ((getSafetyMetadata element).map (fun m => m.useSafeAlternativesOnly)).getD false

/- ===== validateAndReplaceActivities (safety-validation.ts) ===== -/

/-- The `label-focus` string used by the validator and builder dedup sets. -/
def pairKey (label : String) (focus : TherapeuticFocus) : String :=
  label ++ "-" ++ focusName focus

/-- ALL_FOCUSES of safety-validation.ts. -/
def ALL_FOCUSES : List TherapeuticFocus :=
  [.sensory_regulation, .motor_planning, .executive_function,
   .fine_motor, .gross_motor, .bilateral_coordination]

/-- The replacement focus pool of the validator: the restricted pair when the
unsafe candidate's element demands safe alternatives, otherwise every focus. -/
def safeFocusesFor (meta : Option SafetyMetadata) : List TherapeuticFocus :=
  if (meta.map (fun m => m.useSafeAlternativesOnly)).getD false = true then
    [.sensory_regulation, .gross_motor]
  else ALL_FOCUSES

/-- Safety of one candidate as the validator evaluates it (an element without
attached metadata counts as safe, as in the source's `meta ? … : true`). -/
def candidateIsSafe (a : ActivityCandidate) (age : Nat) : Bool :=
  match getSafetyMetadata a.element with
  | some m => isActivitySafe a.objectLabel a.therapeuticFocus a.element age m
  | none => true

/-- Replacement tier 1 of the validator: first safe focus for the same
element, skipping force-implying focuses on safe-alternative elements and
already-used keys. -/
def tier1Search (a : ActivityCandidate) (age : Nat) (used : List String) :
    Option TherapeuticFocus :=
  let meta := getSafetyMetadata a.element
  (safeFocusesFor meta).find? (fun focus =>
    if focusImpliesForce focus = true ∧ (meta.map (fun m => m.useSafeAlternativesOnly)).getD false = true then false
    else if pairKey a.objectLabel focus ∈ used then false
    else match getSafetyMetadata a.element with
      | some altMeta => isActivitySafe a.objectLabel focus a.element age altMeta
      | none => true)

/-- Replacement tier 2 of the validator: first different, non-restricted
element that makes the original focus safe. -/
def tier2Search (a : ActivityCandidate) (elements : List EnvironmentElement)
    (age : Nat) (used : List String) : Option EnvironmentElement :=
  elements.find? (fun el =>
    if el = a.element then false
    else if useSafeAltOf el = true then false
    else if pairKey el.objectLabel a.therapeuticFocus ∈ used then false
    else isActivitySafe el.objectLabel a.therapeuticFocus el age
      ((getSafetyMetadata el).getD (classifyElementForSafety el)))

/-- Processing of one candidate by validateAndReplaceActivities: keep if safe,
else tier-1 replacement, else tier-2 replacement, else keep unchanged. -/
def processOne (a : ActivityCandidate) (elements : List EnvironmentElement)
    (age : Nat) (used : List String) : ActivityCandidate :=
  if candidateIsSafe a age = true then a
  else match tier1Search a age used with
    | some focus => { objectLabel := a.objectLabel, therapeuticFocus := focus, element := a.element }
    | none => match tier2Search a elements age used with
      | some el => { objectLabel := el.objectLabel, therapeuticFocus := a.therapeuticFocus, element := el }
      | none => a

/-- Loop of validateAndReplaceActivities, carrying the result accumulator and
the `used` key set. -/
def validateGo (elements : List EnvironmentElement) (age : Nat) :
    List ActivityCandidate → List ActivityCandidate → List String → List ActivityCandidate
  | [], result, _ => result
  | a :: rest, result, used =>
    let b := processOne a elements age used
    validateGo elements age rest (result ++ [b])
      (used ++ [pairKey b.objectLabel b.therapeuticFocus])

/-- validateAndReplaceActivities of safety-validation.ts. -/
def validateAndReplaceActivities (activities : List ActivityCandidate)
    (elements : List EnvironmentElement) (age : Nat) : List ActivityCandidate :=
  validateGo elements age activities [] []

/- ===== buildActivitiesFromEnvironment (environment.ts) ===== -/

/-- DIVERSITY_BUCKETS of environment.ts. -/
def DIVERSITY_BUCKETS : List TherapeuticFocus :=
  [.gross_motor, .fine_motor, .sensory_regulation,
   .executive_function, .motor_planning, .bilateral_coordination]

/-- pickFocusForElement of environment.ts. -/
def pickFocusForElement (element : EnvironmentElement)
    (usedFocuses : List TherapeuticFocus) (preferredOrder : List TherapeuticFocus) :
    Option TherapeuticFocus :=
  let allowed := if element.motor ≠ [] then element.motor else ALL_THERAPEUTIC_FOCUSES
  match preferredOrder.find? (fun f => decide (f ∈ allowed) && !(decide (f ∈ usedFocuses))) with
  | some f => some f
  | none => allowed.find? (fun f => !(decide (f ∈ usedFocuses)))

/-- State of the builder loop: accumulated activities and the two dedup sets. -/
structure BuildState where
  activities : List ActivityCandidate
  usedFocuses : List TherapeuticFocus
  usedKeys : List String

/-- JS `Set.add`: appends when absent. -/
def addIfAbsent {α : Type} [DecidableEq α] (x : α) (l : List α) : List α :=
  if x ∈ l then l else l ++ [x]

/-- Inner element scan shared by the two builder loops: walks the shuffled
elements, picks a focus for each against the given used-focus set, and stops
at the first element whose `(label, focus)` key is unused (an element whose
pick fails or whose key is used is skipped, as by `continue`). -/
def buildSearchGo (F po : List TherapeuticFocus) (keys : List String) :
    List EnvironmentElement → Option (EnvironmentElement × TherapeuticFocus)
  | [] => none
  | e :: es =>
    match pickFocusForElement e F po with
    | some f =>
      if pairKey e.objectLabel f ∈ keys then buildSearchGo F po keys es else some (e, f)
    | none => buildSearchGo F po keys es

/-- Main inner loop of one builder iteration: the first shuffled element whose
picked focus yields an unused `(label, focus)` key. -/
def buildMainSearch (se : List EnvironmentElement) (po : List TherapeuticFocus)
    (st : BuildState) : Option (EnvironmentElement × TherapeuticFocus) :=
  buildSearchGo st.usedFocuses po st.usedKeys se

/-- Fallback inner loop of one builder iteration (focus reuse allowed: the
used-focus set is passed as empty). -/
def buildSecondSearch (se : List EnvironmentElement) (po : List TherapeuticFocus)
    (st : BuildState) : Option (EnvironmentElement × TherapeuticFocus) :=
  buildSearchGo [] po st.usedKeys se

/-- One iteration of the builder's target-count loop. -/
def buildStep (se : List EnvironmentElement) (po : List TherapeuticFocus)
    (st : BuildState) : BuildState :=
  match buildMainSearch se po st with
  | some (e, f) =>
    { activities := st.activities ++ [⟨e.objectLabel, f, e⟩],
      usedFocuses := addIfAbsent f st.usedFocuses,
      usedKeys := addIfAbsent (pairKey e.objectLabel f) st.usedKeys }
  | none =>
    match buildSecondSearch se po st with
    | some (e, f) =>
      { activities := st.activities ++ [⟨e.objectLabel, f, e⟩],
        usedFocuses := st.usedFocuses,
        usedKeys := addIfAbsent (pairKey e.objectLabel f) st.usedKeys }
    | none => st

/-- The builder's target-count loop (structural on the iteration count). -/
def buildLoop (se : List EnvironmentElement) (po : List TherapeuticFocus) :
    Nat → BuildState → BuildState
  | 0, st => st
  | n + 1, st => buildLoop se po n (buildStep se po st)

/-- buildActivitiesFromEnvironment of environment.ts. The source shuffles
DIVERSITY_BUCKETS into `preferredOrder` and the element list into
`shuffledElements` with `Math.random()`; both orders are passed here as
arguments so theorems quantify over the shuffle outcomes. The age parameter
is unused by the source. -/
def buildActivitiesFromEnvironment (elements : List EnvironmentElement) (_age : Nat)
    (count : Nat) (preferredOrder : List TherapeuticFocus)
    (shuffledElements : List EnvironmentElement) : List ActivityCandidate :=
  if elements = [] then []
  else
    let targetCount := max 3 (min count (min 5 (min (elements.length * 2) ALL_THERAPEUTIC_FOCUSES.length)))
    (buildLoop shuffledElements preferredOrder targetCount ⟨[], [], []⟩).activities

/- ===== refinement.ts ===== -/

/-- RefinedActivity of refinement.ts (the two seed fields are optional in TS
and set by refineActivities). -/
structure RefinedActivity where
  objectLabel : String
  therapeuticFocus : TherapeuticFocus
  element : EnvironmentElement
  specificSkillSeed : Option Nat := none
  humanizeOffset : Option Nat := none
deriving DecidableEq

/-- Coarse activity category used by the diversity pass. -/
inductive ActCategory
  | motor | sensory | executive | adl
deriving DecidableEq

/-- Performance demand used by the diversity pass. -/
inductive ActDemand
  | static | dynamic | bilateral | sequencing
deriving DecidableEq

/-- CATEGORY record of refinement.ts. -/
def CATEGORY : TherapeuticFocus → ActCategory
  | .sensory_regulation => .sensory
  | .motor_planning => .motor
  | .executive_function => .executive
  | .fine_motor => .motor
  | .gross_motor => .motor
  | .bilateral_coordination => .adl

/-- DEMAND record of refinement.ts. -/
def DEMAND : TherapeuticFocus → ActDemand
  | .sensory_regulation => .static
  | .motor_planning => .sequencing
  | .executive_function => .sequencing
  | .fine_motor => .static
  | .gross_motor => .dynamic
  | .bilateral_coordination => .bilateral

/-- NEEDS_SPACE of refinement.ts. -/
def NEEDS_SPACE : List TherapeuticFocus := [.gross_motor, .motor_planning]

/-- PREFERRED_FOR_UNDER_4 of refinement.ts. -/
def PREFERRED_FOR_UNDER_4 : List TherapeuticFocus :=
  [.sensory_regulation, .fine_motor, .gross_motor, .bilateral_coordination]

/-- LESS_SUITABLE_UNDER_4 of refinement.ts. -/
def LESS_SUITABLE_UNDER_4 : List TherapeuticFocus :=
  [.executive_function, .motor_planning]

/-- isFeasibleInSpace of refinement.ts. -/
def isFeasibleInSpace (a : ActivityCandidate) : Bool :=
  if a.element.space ≠ .constrained then true
  else if ¬ (a.therapeuticFocus ∈ NEEDS_SPACE) then true
  else false

/-- substituteFocusForSpace of refinement.ts. -/
def substituteFocusForSpace (a : ActivityCandidate) : TherapeuticFocus :=
  let allowed := if a.element.motor ≠ [] then a.element.motor
    else [.fine_motor, .sensory_regulation, .executive_function]
  let prefers := allowed.filter (fun f => !(decide (f ∈ NEEDS_SPACE)))
  prefers.headD (allowed.headD a.therapeuticFocus)

/-- substituteFocusForAge of refinement.ts. -/
def substituteFocusForAge (a : ActivityCandidate) : TherapeuticFocus :=
  let allowed := if a.element.motor ≠ [] then a.element.motor
    else [.sensory_regulation, .fine_motor, .gross_motor]
  let preferred := allowed.filter (fun f => decide (f ∈ PREFERRED_FOR_UNDER_4))
  preferred.headD (allowed.headD a.therapeuticFocus)

/-- getHumanizeOffset of refinement.ts; `focus.length` is the length of the
focus's TS string literal. -/
def getHumanizeOffset (index : Nat) (focus : TherapeuticFocus) : Nat :=
  (index * 7 + (focusName focus).length) % 3

/-- areStructurallySimilar of refinement.ts. -/
def areStructurallySimilar (prev curr : RefinedActivity) : Bool :=
  decide (CATEGORY prev.therapeuticFocus = CATEGORY curr.therapeuticFocus) &&
  decide (DEMAND prev.therapeuticFocus = DEMAND curr.therapeuticFocus)

/-- Removes the first list entry satisfying the predicate, returning it and
the remainder; models `findIndex` followed by `splice(idx, 1)`. -/
def extractFirst {α : Type} (p : α → Bool) : List α → Option (α × List α)
  | [] => none
  | x :: xs =>
    if p x then some (x, xs)
    else match extractFirst p xs with
      | some (c, rest) => some (c, x :: rest)
      | none => none

/-- Greedy reorder loop of enforceDiversityOrder. Each iteration moves the
first remaining activity that is not structurally similar to the last placed
one (or the first remaining activity when none differs or nothing is placed
yet). The fuel starts at the list length and each iteration consumes exactly
one remaining activity, so the loop is exact. -/
def diversityGo : Nat → List RefinedActivity → List RefinedActivity → List RefinedActivity
  | 0, out, _ => out
  | _ + 1, out, [] => out
  | fuel + 1, out, r :: rs =>
    match out.getLast? with
    | none => diversityGo fuel (out ++ [r]) rs
    | some l =>
      match extractFirst (fun a => !(areStructurallySimilar l a)) (r :: rs) with
      | some (c, rest) => diversityGo fuel (out ++ [c]) rest
      | none => diversityGo fuel (out ++ [r]) rs

/-- enforceDiversityOrder of refinement.ts. -/
def enforceDiversityOrder (activities : List RefinedActivity) : List RefinedActivity :=
  if activities.length ≤ 1 then activities
  else diversityGo activities.length [] activities

/-- Per-candidate refinement (rules 3, 6, 2 and 5 of refineActivities): space
substitution, age substitution, then the two deterministic seeds. -/
def refineOne (a : ActivityCandidate) (index age : Nat) : RefinedActivity :=
  let focus1 := if isFeasibleInSpace a = false then substituteFocusForSpace a
    else a.therapeuticFocus
  let focus2 := if age < 4 ∧ focus1 ∈ LESS_SUITABLE_UNDER_4 then
      substituteFocusForAge { a with therapeuticFocus := focus1 }
    else focus1
  { objectLabel := a.objectLabel, therapeuticFocus := focus2, element := a.element,
    specificSkillSeed := some (index + age + a.objectLabel.length % 5),
    humanizeOffset := some (getHumanizeOffset index focus2) }

/-- Index-carrying map of refineActivities over the candidate list. -/
def refineGo (age : Nat) : Nat → List ActivityCandidate → List RefinedActivity
  | _, [] => []
  | index, a :: rest => refineOne a index age :: refineGo age (index + 1) rest

/-- refineActivities of refinement.ts (the element-list parameter is unused by
the source, as here). -/
def refineActivities (activities : List ActivityCandidate)
    (_elements : List EnvironmentElement) (age : Nat) : List RefinedActivity :=
  if activities = [] then []
  else enforceDiversityOrder (refineGo age 0 activities)

/- ===== Detection filter of the API route handler (src/unnamed/part_001) ===== -/

/-- Raw prediction pair returned by the detector. -/
structure RawPrediction where
  className : String
  probability : ℚ
deriving DecidableEq

/-- forbiddenKeywords of the POST handler. -/
def forbiddenKeywords : List String :=
  ["face", "person", "people", "man", "woman", "boy", "girl", "human"]

/-- Person/body-part test of the POST handler's detection filter. -/
def containsForbiddenKeyword (className : String) : Bool :=
  forbiddenKeywords.any (fun kw => jsIncludes (jsToLower className) kw)

/-- The detection-filter stage of the POST handler (lines 70 to 76 of the
route source): keeps the predictions whose class name contains no
person/body-part keyword. -/
def filteredPredictions (predictions : List RawPrediction) : List RawPrediction :=
  predictions.filter (fun p => !(containsForbiddenKeyword p.className))

/- ===== AI reasoning layer (src/unnamed/part_002, ai-reasoning.ts) ===== -/

/-- ReasonedElement of ai-reasoning.ts. -/
structure ReasonedElement where
  rawLabel : String
  elementNameAr : String
  functionalCategory : String
  contextualInterpretation : String
  confidenceAfterProcessing : ℚ
deriving DecidableEq

/-- FUNCTIONAL_CATEGORIES.seating. -/
def fcSeating : String := "أثاث جلوس"
/-- FUNCTIONAL_CATEGORIES.workSurface. -/
def fcWorkSurface : String := "سطح عمل"
/-- FUNCTIONAL_CATEGORIES.floorFurnishing. -/
def fcFloorFurnishing : String := "أرضية وفرش"
/-- FUNCTIONAL_CATEGORIES.lighting. -/
def fcLighting : String := "إضاءة"
/-- FUNCTIONAL_CATEGORIES.opening. -/
def fcOpening : String := "فتحات ومرور"
/-- FUNCTIONAL_CATEGORIES.playMotion. -/
def fcPlayMotion : String := "لعب وحركة"
/-- FUNCTIONAL_CATEGORIES.dailyUse. -/
def fcDailyUse : String := "أدوات استعمال يومي"
/-- FUNCTIONAL_CATEGORIES.storage. -/
def fcStorage : String := "تخزين وترتيب"
/-- FUNCTIONAL_CATEGORIES.rest. -/
def fcRest : String := "عناصر راحة ونوم"
/-- FUNCTIONAL_CATEGORIES.hygiene. -/
def fcHygiene : String := "عناصر النظافة"
/-- FUNCTIONAL_CATEGORIES.electronics. -/
def fcElectronics : String := "أجهزة وإلكترونيات"
/-- FUNCTIONAL_CATEGORIES.decor. -/
def fcDecor : String := "عناصر زينة وديكور"
/-- FUNCTIONAL_CATEGORIES.structure. -/
def fcStructure : String := "عناصر إنشائية ثابتة"

/-- norm of ai-reasoning.ts: first comma segment, trimmed, lowercased,
whitespace runs collapsed to single spaces. -/
def normAI (label : String) : String :=
  jsCollapseWs ' ' (jsToLower (jsTrim (jsFirstCommaSeg label)))

/-- relevanceWeight of ai-reasoning.ts. -/
def relevanceWeight (normalized : String) : ℚ :=
  let lowRelevance := ["spot", "gondola", "restaurant", "barber", "grocery",
    "bakery", "library", "prison", "jail"]
  if lowRelevance.any (fun w => jsIncludes normalized w) then 4/10
  else
    let highRelevance := ["couch", "sofa", "chair", "table", "desk", "bed", "pillow",
      "blanket", "carpet", "rug", "ball", "stairs", "door", "window", "lamp", "book",
      "toy", "shelf", "stool", "bench"]
    if highRelevance.any (fun w => jsIncludes normalized w) then 1 else 75/100

/-- INTERACTION_FIRST of ai-reasoning.ts. -/
def INTERACTION_FIRST : List String :=
  ["ball", "toy", "doll", "teddy", "block", "cube", "puzzle", "lego", "book",
   "pillow", "blanket", "quilt", "cushion", "basket", "box", "bowl", "plate",
   "cup", "towel", "carpet", "rug", "chair", "stool", "bench", "ottoman",
   "table", "desk", "couch", "sofa", "bed", "shelf", "drawer", "bookcase",
   "wardrobe", "cabinet", "bike", "bicycle", "swing", "lamp", "mirror",
   "plant", "vase"]

/-- STRUCTURAL_BACKGROUND of ai-reasoning.ts. -/
def STRUCTURAL_BACKGROUND : List String := ["wall", "floor", "door", "window", "stairs", "step"]

/-- interactionPriorityScore of ai-reasoning.ts. -/
def interactionPriorityScore (normalized : String) : Nat :=
  if INTERACTION_FIRST.any (fun w => jsIncludes normalized w) then 2
  else if STRUCTURAL_BACKGROUND.any (fun w => jsIncludes normalized w) then 0
  else 1

/-- One entry of the curated interpretation table of interpretOne. -/
structure CuratedEntry where
  key : String
  nameAr : String
  category : String
  context : String
deriving DecidableEq

/-- The curated interpretation table of interpretOne, in source order. -/
def interpretations : List CuratedEntry :=
  [⟨"couch", "كنبة منزلية", fcSeating, "عنصر جلوس مستقر يوفر دعمًا وضعيًا وفرصة للتنظيم الحسي والراحة."⟩,
   ⟨"sofa", "أريكة", fcSeating, "أثاث جلوس رئيسي في الغرفة يدعم وضعية الجلوس والانتقالات واللعب الوظيفي."⟩,
   ⟨"chair", "كرسي", fcSeating, "دعم جلوس بارتفاع مناسب يسهّل المشاركة في أنشطة الطاولة والتوازن الجلوسي."⟩,
   ⟨"table", "طاولة", fcWorkSurface, "سطح عمل ثابت يدعم الأنشطة الدقيقة والتنظيم البصري والوصول الآمن."⟩,
   ⟨"desk", "مكتب", fcWorkSurface, "مساحة عمل منظمة مناسبة للتركيز والحركة الدقيقة والوظائف التنفيذية."⟩,
   ⟨"bed", "سرير", fcRest, "عنصر راحة ونوم يمكن استغلاله بأمان لأنشطة تنظيم حسي وانتقالات مدروسة."⟩,
   ⟨"pillow", "وسادة", fcRest, "عنصر لمسي ناعم يدعم التهدئة والوعي الحسي والتحكم في القوة."⟩,
   ⟨"blanket", "بطانية", fcRest, "غطاء ناعم يوفر مدخلات لمسية قابلة للضبط والتنظيم الذاتي."⟩,
   ⟨"quilt", "لحاف", fcRest, "فراش ناعم يعزز الإحساس بالأمان والاستكشاف اللمسي."⟩,
   ⟨"carpet", "سجادة أرضية", fcFloorFurnishing, "سطح آمن على الأرض يدعم الحركة الكبيرة والتوازن واللعب الأرضي."⟩,
   ⟨"rug", "سجادة", fcFloorFurnishing, "منطقة محددة على الأرض توفر ثباتًا ومرجعًا مكانيًا للأنشطة الحركية."⟩,
   ⟨"floor", "أرضية الغرفة", fcStructure, "المساحة الأرضية المتاحة للمشي والتوازن والانتقالات."⟩,
   ⟨"ball", "كرة", fcPlayMotion, "أداة حركية قابلة للتدحرج تدعم التخطيط الحركي والتنسيق الثنائي."⟩,
   ⟨"stairs", "درج", fcStructure, "عنصر صعود ونزول يتطلب تخطيطًا حركيًا وتوازنًا؛ يُستخدم بحذر وإشراف."⟩,
   ⟨"step", "درجة أو منصة", fcStructure, "ارتفاع بسيط يمكن استخدامه للتوازن والانتقال مع مراعاة السلامة."⟩,
   ⟨"stool", "كرسي صغير أو مقعد", fcSeating, "جلوس منخفض أو وسيط يدعم الوصول إلى الأسطح والاستقرار."⟩,
   ⟨"bench", "مقعد", fcSeating, "عنصر جلوس مستقر للمساحة المتاحة والانتظار أو اللعب الهادئ."⟩,
   ⟨"ottoman", "مقعد قدمين", fcSeating, "عنصر منخفض للراحة أو كهدف حركي آمن."⟩,
   ⟨"lamp", "مصباح", fcLighting, "مصدر إضاءة يمكن ضبطه لتهيئة البيئة البصرية."⟩,
   ⟨"door", "باب", fcOpening, "حدّ مكاني ومسار انتقال؛ يُراعى في تخطيط المسار والسلامة."⟩,
   ⟨"window", "نافذة", fcOpening, "فتحة إضاءة وتهوية؛ القرب منها يتطلب إشرافًا من حيث السلامة."⟩,
   ⟨"wall", "جدار", fcStructure, "حدّ ثابت للغرفة يعطي مرجعًا مكانيًا وثباتًا."⟩,
   ⟨"book", "كتاب", fcDailyUse, "مادة للقراءة والتنظيم البصري والأنشطة الدقيقة والتنفيذية."⟩,
   ⟨"bookcase", "خزانة كتب", fcStorage, "تخزين منظم يدعم الترتيب والوصول والتنظيم البصري."⟩,
   ⟨"shelf", "رف", fcStorage, "سطح تخزين يسهّل الترتيب والوصول والتنظيم."⟩,
   ⟨"wardrobe", "خزانة ملابس", fcStorage, "تخزين مغلق يوفر مرجعًا مكانيًا وفرص ترتيب."⟩,
   ⟨"cabinet", "خزانة", fcStorage, "وحدة تخزين ثابتة تدعم التنظيم والوصول الآمن."⟩,
   ⟨"drawer", "درج تخزين", fcStorage, "مساحة مغلقة للترتيب والوصول المتسلسل."⟩,
   ⟨"box", "صندوق", fcStorage, "حاوية للترتيب والنقل والأنشطة التنفيذية."⟩,
   ⟨"basket", "سلة", fcStorage, "وعاء مفتوح للنقل والترتيب والتنسيق الثنائي."⟩,
   ⟨"bike", "دراجة", fcPlayMotion, "أداة حركية تُستخدم بحذر في المساحة المتاحة مع مراعاة السلامة."⟩,
   ⟨"bicycle", "دراجة", fcPlayMotion, "عنصر حركي يحتاج مساحة ومراقبة عند الاستخدام."⟩,
   ⟨"toy", "لعبة", fcPlayMotion, "أداة لعب مناسبة للأنشطة الدقيقة أو الحركية حسب نوعها."⟩,
   ⟨"doll", "دمية", fcPlayMotion, "عنصر لعب يدعم التخيل والحركة الدقيقة واللعب الوظيفي."⟩,
   ⟨"teddy", "دمية دب", fcPlayMotion, "لعبة ناعمة مناسبة للتهدئة واللمس الآمن."⟩,
   ⟨"block", "مكعب أو قطعة بناء", fcPlayMotion, "عنصر بناء يدعم التنسيق والتنظيم والوظائف التنفيذية."⟩,
   ⟨"cube", "مكعب", fcPlayMotion, "شكل ثابت يمكن استخدامه للترتيب والحركة الدقيقة."⟩,
   ⟨"puzzle", "لغز أو بانوراما", fcDailyUse, "نشاط تنفيذي وتخطيط بصري وتنسيق ثنائي."⟩,
   ⟨"lego", "قطع بناء", fcPlayMotion, "عناصر تركيب تدعم الحركة الدقيقة والتخطيط."⟩,
   ⟨"tv", "تلفزيون", fcElectronics, "شاشة ثابتة؛ يمكن ضبط البعد والوقت لتنظيم البصري."⟩,
   ⟨"television", "تلفزيون", fcElectronics, "جهاز عرض ثابت في الغرفة يُراعى في تهيئة البيئة."⟩,
   ⟨"monitor", "شاشة", fcElectronics, "سطح عرض ثابت يدعم الأنشطة الموجهة عند الحاجة."⟩,
   ⟨"laptop", "حاسوب محمول", fcElectronics, "جهاز عمل أو تعلم يمكن إبعاده عند التركيز على أنشطة حركية."⟩,
   ⟨"computer", "حاسوب", fcElectronics, "جهاز ثابت في الغرفة؛ يُنظّم استخدامه حسب أهداف الجلسة."⟩,
   ⟨"phone", "هاتف", fcElectronics, "جهاز اتصال؛ يمكن استبعاده لتقليل التشويش أثناء الأنشطة."⟩,
   ⟨"remote", "جهاز تحكم", fcElectronics, "أداة صغيرة تدعم القبضة والضغط المتدرج."⟩,
   ⟨"keyboard", "لوحة مفاتيح", fcElectronics, "سطح مفاتيح للضغط المنظم والحركة الدقيقة عند الحاجة."⟩,
   ⟨"cushion", "وسادة صغيرة", fcRest, "عنصر ناعم للدعم أو اللعب اللمسي الآمن."⟩,
   ⟨"mattress", "فراش", fcRest, "سطح راحة يدعم الحركة الآمنة والتنظيم الحسي."⟩,
   ⟨"plant", "نبات", fcDecor, "عنصر بصري طبيعي يخفف من جفاف البيئة."⟩,
   ⟨"vase", "مزهرية", fcDecor, "عنصر زينة ثابت؛ يُراعى عدم كسره في الأنشطة الحركية."⟩,
   ⟨"mirror", "مرآة", fcDecor, "انعكاس بصري يساعد في الوعي الجسدي عند استخدام آمن."⟩,
   ⟨"towel", "منشفة", fcDailyUse, "قوام لمسي يمكن استخدامه للتهدئة أو التنظيف الوظيفي."⟩,
   ⟨"bowl", "وعاء", fcDailyUse, "حاوية مناسبة للترتيب والنقل والحركة الدقيقة."⟩,
   ⟨"plate", "صحن", fcDailyUse, "سطح حمل ثابت للأنشطة المنزلية أو اللعب التمثيلي."⟩,
   ⟨"cup", "كوب", fcDailyUse, "أداة حمل تدعم القبضة والتناسق."⟩,
   ⟨"diningtable", "طاولة طعام", fcWorkSurface, "سطح مشترك للوجبات والأنشطة العائلية والتنظيم."⟩,
   ⟨"coffeetable", "طاولة قهوة", fcWorkSurface, "طاولة منخفضة مناسبة للوصول واللعب على الأرض."⟩,
   ⟨"highchair", "كرسي أطفال", fcSeating, "جلوس آمن بارتفاع الطاولة مع دعم وضعية."⟩,
   ⟨"bathtub", "حوض استحمام", fcHygiene, "مساحة مائية؛ تُستخدم تحت إشراف لتهدئة حسية عند الحاجة."⟩,
   ⟨"tub", "حوض", fcHygiene, "وعاء كبير؛ الاستخدام يكون بإشراف وفق السياق."⟩,
   ⟨"sink", "حوض غسيل", fcHygiene, "سطح غسل ثابت؛ يدعم الأنشطة اليومية والتسلسل."⟩,
   ⟨"toilet", "مرحاض", fcHygiene, "عنصر حمام ثابت؛ يُراعى في التوجيه اليومي دون تفصيل علاجي."⟩,
   ⟨"refrigerator", "ثلاجة", fcElectronics, "جهاز ثابت في المطبخ؛ مرجع مكاني دون استخدام في الأنشطة العلاجية."⟩,
   ⟨"oven", "فرن", fcElectronics, "جهاز حراري ثابت؛ يُذكر من حيث السلامة فقط."⟩,
   ⟨"microwave", "ميكروويف", fcElectronics, "جهاز مطبخ ثابت؛ لا يُستخدم في أنشطة الطفل المباشرة."⟩,
   ⟨"swing", "أرجوحة", fcPlayMotion, "عنصر حركي دهليزي؛ يُستخدم تحت إشراف ووفق التحمل."⟩,
   ⟨"board", "لوحة", fcWorkSurface, "سطح ثابت للكتابة أو التنظيم البصري."⟩,
   ⟨"card", "بطاقات", fcDailyUse, "مواد للترتيب واللعب التنفيذي والذاكرة العاملة."⟩,
   ⟨"notebook", "دفتر", fcDailyUse, "سطح للكتابة والتنظيم والتسلسل."⟩,
   ⟨"backpack", "حقيبة ظهر", fcStorage, "حاوية نقل تدعم الترتيب والتحميل الثنائي."⟩,
   ⟨"scissors", "مقص", fcDailyUse, "أداة دقيقة؛ تُستخدم تحت إشراف في أنشطة القص."⟩]

/-- The curated-table search of interpretOne on the whitespace-free
normalized label. -/
def findCurated (base : String) : Option CuratedEntry :=
  interpretations.find? (fun interp =>
    let k := jsRemoveAllWs interp.key
    jsIncludes base k || jsIncludes k base)

/-- Whether a raw class name matches an entry of the curated table. -/
def matchesCuratedTable (className : String) : Bool :=
  (findCurated (jsRemoveAllWs (normAI className))).isSome

/-- genericOrIrrelevant list of interpretOne. -/
def genericOrIrrelevant : List String := ["object", "entity", "thing", "item", "something"]

/-- exclude list of interpretOne. -/
def excludeTerms : List String :=
  ["swastika", "confederate", "cartoon", "comic", "mask", "weapon", "gun", "rifle", "grenade"]

/-- envLike list of interpretOne. -/
def envLikeTerms : List String :=
  ["furniture", "furnishing", "room", "indoor", "floor", "wall", "table", "chair",
   "seat", "cushion", "mat", "rug", "carpet", "shelf", "desk", "bed", "lamp",
   "door", "window"]

/-- Environment-like fallback branch of interpretOne: the nested conditional
derives a specific Arabic name from the normalized label. -/
def interpretEnvLike (className n : String) (confidence : ℚ) : ReasonedElement :=
  let safeName :=
    if jsIncludes n "table" then "طاولة"
    else if jsIncludes n "chair" || jsIncludes n "seat" then "كرسي"
    else if jsIncludes n "floor" || jsIncludes n "mat" then "أرضية أو فرش"
    else if jsIncludes n "shelf" then "رف"
    else if jsIncludes n "desk" then "مكتب"
    else if jsIncludes n "bed" then "سرير"
    else if jsIncludes n "lamp" then "مصباح"
    else if jsIncludes n "door" then "باب"
    else if jsIncludes n "window" then "نافذة"
    else if jsIncludes n "furniture" then "أثاث"
    else if jsIncludes n "furnishing" then "فرش أو أثاث"
    else if jsIncludes n "wall" then "جدار"
    else if jsIncludes n "room" then "عناصر الغرفة"
    else if jsIncludes n "indoor" then "عنصر داخلي"
    else
      let first := jsReplaceAll '_' ' ' (firstSpaceSeg n)
      if first ≠ "" then "عنصر مشابه لـ " ++ first else "عنصر في بيئة الغرفة"
  { rawLabel := className, elementNameAr := safeName,
    functionalCategory := fcDailyUse,
    contextualInterpretation := "يمكن دمج العنصر في أنشطة علاجية (جلوس، نقل، لعب، تنظيم) بعد تقييم السلامة والوظيفة والملاءمة العمرية.",
    confidenceAfterProcessing := confidence * (85/100) }

/-- Hedge-named fallback branch of interpretOne for moderately plausible
labels. -/
def interpretHedge (className n : String) (confidence : ℚ) : ReasonedElement :=
  let transliterated := jsReplaceAll '_' ' ' (firstSpaceSeg n)
  let nameAr := if transliterated ≠ "" then
      "عنصر (" ++ transliterated ++ ") — يُفضّل التأكد من السياق"
    else "عنصر — يُفضّل التأكد من السياق"
  { rawLabel := className, elementNameAr := nameAr,
    functionalCategory := fcDailyUse,
    contextualInterpretation := "تصنيف أولي من الصورة؛ يُنصح بمراعاة السياق الفعلي للغرفة وملاءمة العمر قبل تصميم النشاط.",
    confidenceAfterProcessing := confidence * (6/10) }

/-- interpretOne of ai-reasoning.ts. -/
def interpretOne (className : String) (probability : ℚ) : Option ReasonedElement :=
  let n := normAI className
  let base := jsRemoveAllWs n
  let firstWord := firstToken n
  if genericOrIrrelevant.any (fun w => decide (firstWord = w) || decide (firstWord = w ++ "s")) then none
  else if excludeTerms.any (fun w => jsIncludes n w) then none
  else
    let rel := relevanceWeight n
    let confidence := min 1 (jsRound2 (probability * (6/10) + rel * (4/10)))
    match findCurated base with
    | some interp =>
      some { rawLabel := className, elementNameAr := interp.nameAr,
             functionalCategory := interp.category,
             contextualInterpretation := interp.context,
             confidenceAfterProcessing := confidence }
    | none =>
      if envLikeTerms.any (fun w => jsIncludes n w) then
        some (interpretEnvLike className n confidence)
      else if (1/2 : ℚ) ≤ rel then
        some (interpretHedge className n confidence)
      else none

/-- Loop of reasonOverDetections: per prediction, skip already-seen normalized
labels, run interpretOne, and keep results with confidence at least 0.35. -/
def reasonGo : List RawPrediction → List String → List ReasonedElement
  | [], _ => []
  | p :: ps, seen =>
    let n := normAI p.className
    if n ∈ seen then reasonGo ps seen
    else match interpretOne p.className p.probability with
      | some el =>
        if (35/100 : ℚ) ≤ el.confidenceAfterProcessing then el :: reasonGo ps (seen ++ [n])
        else reasonGo ps seen
      | none => reasonGo ps seen

/-- Stable insertion of one element under a should-stay-before test. -/
def stableInsert {α : Type} (r : α → α → Bool) (x : α) : List α → List α
  | [] => [x]
  | y :: ys => if r x y then x :: y :: ys else y :: stableInsert r x ys

/-- Stable sort (insertion sort); models JS `Array.prototype.sort`, which is
stable, for a comparator whose should-stay-before test is `r`. -/
def stableSort {α : Type} (r : α → α → Bool) (l : List α) : List α :=
  l.foldr (stableInsert r) []

/-- Should-stay-before test of the reasonOverDetections comparator
(interaction priority descending, then confidence descending). -/
def reasonCmp (a b : ReasonedElement) : Bool :=
  let pa := interactionPriorityScore (normAI a.rawLabel)
  let pb := interactionPriorityScore (normAI b.rawLabel)
  if pa = pb then decide (b.confidenceAfterProcessing ≤ a.confidenceAfterProcessing)
  else decide (pb < pa)

/-- reasonOverDetections of ai-reasoning.ts. -/
def reasonOverDetections (predictions : List RawPrediction) : List ReasonedElement :=
  stableSort reasonCmp (reasonGo predictions [])

/- ===== element-validation.ts ===== -/

/-- ALLOWLIST_KEYWORDS of element-validation.ts. -/
def ALLOWLIST_KEYWORDS : List String :=
  ["couch", "sofa", "chair", "table", "desk", "bed", "pillow", "blanket", "quilt",
   "carpet", "rug", "floor", "ball", "stairs", "step", "stool", "bench", "ottoman",
   "lamp", "door", "window", "wall", "book", "bookcase", "shelf", "wardrobe", "cabinet",
   "drawer", "box", "basket", "bike", "bicycle", "toy", "doll", "teddy", "block", "cube",
   "puzzle", "lego", "tv", "television", "monitor", "laptop", "computer", "phone", "remote",
   "keyboard", "cushion", "mattress", "plant", "vase", "mirror", "towel", "bowl", "plate",
   "cup", "dining", "coffee", "highchair", "bathtub", "tub", "sink", "toilet", "refrigerator",
   "oven", "microwave", "swing", "board", "card", "notebook", "backpack", "screen",
   "printer", "toaster", "envelope", "filing", "copier", "modem", "cellular", "telephone",
   "furniture", "furnishing", "seat", "mat", "cot"]

/-- BLOCKLIST_KEYWORDS of element-validation.ts. -/
def BLOCKLIST_KEYWORDS : List String :=
  ["menu", "scoreboard", "website", "web site", "prom", "book jacket", "comic book",
   "comic", "cartoon", "snow", "lakeside", "landscape", "gondola", "barber", "grocery",
   "bakery", "prison", "jail", "nightclub", "confederate", "swastika", "weapon", "gun",
   "rifle", "grenade", "restaurant", "dome", "spot", "mask"]

/-- INTERACTION_FIRST_KEYWORDS of element-validation.ts. -/
def INTERACTION_FIRST_KEYWORDS : List String :=
  ["ball", "toy", "doll", "teddy", "block", "cube", "puzzle", "lego", "book", "pillow",
   "blanket", "quilt", "cushion", "basket", "box", "bowl", "plate", "cup", "towel", "card",
   "notebook", "remote", "keyboard", "carpet", "rug", "chair", "stool", "bench", "ottoman",
   "table", "desk", "couch", "sofa", "bed", "mat", "shelf", "drawer", "bookcase", "wardrobe",
   "cabinet", "bike", "bicycle", "swing", "lamp", "mirror", "plant", "vase"]

/-- STRUCTURAL_OR_BACKGROUND_KEYWORDS of element-validation.ts. -/
def STRUCTURAL_OR_BACKGROUND_KEYWORDS : List String :=
  ["wall", "floor", "door", "window", "stairs", "step"]

/-- normalize of element-validation.ts. -/
def normalizeEV (label : String) : String :=
  jsCollapseWs ' ' (jsToLower (jsTrim (jsFirstCommaSeg label)))

/-- normalizedKey of element-validation.ts. -/
def normalizedKeyEV (label : String) : String := jsRemoveAllWs (normalizeEV label)

/-- matchesBlocklist of element-validation.ts. -/
def matchesBlocklist (normalized : String) : Bool :=
  BLOCKLIST_KEYWORDS.any (fun kw => jsIncludes normalized kw)

/-- matchesAllowlist of element-validation.ts. -/
def matchesAllowlist (label : String) : Bool :=
  let n := normalizeEV label
  let key := normalizedKeyEV label
  ALLOWLIST_KEYWORDS.any (fun kw =>
    jsIncludes key (jsRemoveAllWs kw) || jsIncludes n kw ||
    (decide (3 ≤ kw.length) && jsIncludes key kw))

/-- excludedForAge of element-validation.ts (AGE_NO_SHARP_SMALL_PARTS = 3). -/
def excludedForAge (label : String) (age : Nat) : Bool :=
  if 3 ≤ age then false
  else
    let n := normalizeEV label
    ["scissors", "scissor"].any (fun kw => jsIncludes n kw)

/-- interactionPriority of element-validation.ts. -/
def interactionPriority (label : String) : Nat :=
  let n := normalizeEV label
  let key := normalizedKeyEV label
  if INTERACTION_FIRST_KEYWORDS.any (fun kw => jsIncludes key (jsRemoveAllWs kw) || jsIncludes n kw) then 2
  else if STRUCTURAL_OR_BACKGROUND_KEYWORDS.any (fun kw => jsIncludes key (jsRemoveAllWs kw) || jsIncludes n kw) then 0
  else 1

/-- JS `new Map(res.map(r => [r.rawLabel, r])).get(l)`: the last entry with the
given raw label wins. -/
def jsMapGet (res : List ReasonedElement) (l : String) : Option ReasonedElement :=
  res.foldl (fun acc r => if r.rawLabel = l then some r else acc) none

/-- Keep-decision loop of validateDetectedElements building the `allowedRaw`
set: blocklist, allowlist, and age checks, plus the 0.4 confidence re-check
that applies only when a matching ReasonedElement exists. -/
def allowedRawGo (res : List ReasonedElement) (age : Nat) :
    List String → List String → List String
  | [], acc => acc
  | l :: ls, acc =>
    if matchesBlocklist (normalizeEV l) = true then allowedRawGo res age ls acc
    else if matchesAllowlist l = false then allowedRawGo res age ls acc
    else if excludedForAge l age = true then allowedRawGo res age ls acc
    else match jsMapGet res l with
      | some re =>
        if re.confidenceAfterProcessing < (4/10 : ℚ) then allowedRawGo res age ls acc
        else allowedRawGo res age ls (addIfAbsent l acc)
      | none => allowedRawGo res age ls (addIfAbsent l acc)

/-- Return shape of validateDetectedElements. -/
structure ValidatedElements where
  labels : List String
  reasonedElements : List ReasonedElement
deriving DecidableEq

/-- Should-stay-before test of the label sort of validateDetectedElements
(interaction priority descending). -/
def labelSortCmp (a b : String) : Bool :=
  decide (interactionPriority b ≤ interactionPriority a)

/-- JS `l.indexOf(x)`. -/
def jsIndexOf (l : List String) (x : String) : Int :=
  match l.findIdx? (fun y => decide (y = x)) with
  | some i => (i : Int)
  | none => -1

/-- Should-stay-before test of the reasoned-element reorder of
validateDetectedElements (ascending index in the filtered label list). -/
def reasonedOrderCmp (fl : List String) (a b : ReasonedElement) : Bool :=
  decide (jsIndexOf fl a.rawLabel ≤ jsIndexOf fl b.rawLabel)

/-- validateDetectedElements of element-validation.ts
(TARGET_OBJECT_COUNT_MAX = 5, MIN_CONFIDENCE = 0.4). -/
def validateDetectedElements (labels : List String)
    (reasonedElements : List ReasonedElement) (age : Nat) : ValidatedElements :=
  let allowedRaw := allowedRawGo reasonedElements age labels []
  let filteredLabels0 := labels.filter (fun l => decide (l ∈ allowedRaw))
  let filteredReasoned := reasonedElements.filter (fun r => decide (r.rawLabel ∈ allowedRaw))
  let filteredLabels := (stableSort labelSortCmp filteredLabels0).take 5
  let reasonedOrdered := stableSort (reasonedOrderCmp filteredLabels)
    (filteredReasoned.filter (fun r => decide (r.rawLabel ∈ filteredLabels)))
  ⟨filteredLabels, reasonedOrdered⟩

/- ===== Shared helper lemmas ===== -/

theorem addIfAbsent_mem {α : Type} [DecidableEq α] (x y : α) (l : List α) :
    x ∈ addIfAbsent y l ↔ x ∈ l ∨ x = y := by
  unfold addIfAbsent
  split
  · rename_i hy
    constructor
    · exact fun h => Or.inl h
    · rintro (h | rfl)
      · exact h
      · exact hy
  · simp [List.mem_append]

theorem stableInsert_perm {α : Type} (r : α → α → Bool) (x : α) :
    ∀ l : List α, (stableInsert r x l).Perm (x :: l) := by
  intro l
  induction l with
  | nil => simp [stableInsert]
  | cons y ys ih =>
    rw [stableInsert]
    split
    · exact List.Perm.refl _
    · exact (List.Perm.cons y ih).trans (List.Perm.swap x y ys)

theorem stableSort_perm {α : Type} (r : α → α → Bool) (l : List α) :
    (stableSort r l).Perm l := by
  induction l with
  | nil => exact List.Perm.refl _
  | cons x xs ih =>
    have : stableSort r (x :: xs) = stableInsert r x (stableSort r xs) := rfl
    rw [this]
    exact (stableInsert_perm r x (stableSort r xs)).trans (List.Perm.cons x ih)

theorem mem_stableSort {α : Type} (r : α → α → Bool) (l : List α) (a : α) :
    a ∈ stableSort r l ↔ a ∈ l :=
  (stableSort_perm r l).mem_iff

/- ===== C9: empty inputs propagate to empty outputs ===== -/

/-- C9: for an empty input at each stage, every core stage returns an empty
result without error: reasonOverDetections, validateDetectedElements,
analyzeEnvironment, buildActivitiesFromEnvironment and refineActivities all
map empty inputs to empty outputs, for every age, count, shuffle outcome and
element list. -/
theorem c9_empty_inputs :
    ∀ (age count : Nat) (po : List TherapeuticFocus) (se elements : List EnvironmentElement),
    reasonOverDetections [] = [] ∧
    validateDetectedElements [] [] age = ⟨[], []⟩ ∧
    analyzeEnvironment [] = [] ∧
    buildActivitiesFromEnvironment [] age count po se = [] ∧
    refineActivities [] elements age = [] := by
  intro age count po se elements
  exact ⟨rfl, rfl, rfl, rfl, rfl⟩

/- ===== C2: characterization of isActivitySafe ===== -/

/-- C2: isActivitySafe returns false exactly when the metadata demands safe
alternatives and the focus implies force (motor_planning, fine_motor,
bilateral_coordination, executive_function), or the element is classified
elevated_unstable and either the age band disallows elevated surfaces with a
gross_motor/motor_planning focus, or climbing is forbidden with a gross_motor
focus; in particular gross_motor and sensory_regulation are always safe on a
safe-alternatives-only element that is not elevated_unstable. -/
theorem c2_isActivitySafe_characterization :
    (∀ (label : String) (focus : TherapeuticFocus) (el : EnvironmentElement)
        (age : Nat) (meta : SafetyMetadata),
      isActivitySafe label focus el age meta = false ↔
        ((meta.useSafeAlternativesOnly = true ∧
          focus ∈ [TherapeuticFocus.motor_planning, .fine_motor,
                   .bilateral_coordination, .executive_function]) ∨
        (ObjectSafetyClass.elevated_unstable ∈ meta.classes ∧
          (((getAgeFeasibility age).allowElevatedSurfaces = false ∧
            (focus = .gross_motor ∨ focus = .motor_planning)) ∨
           (ForbiddenAction.climb_unstable ∈ meta.forbiddenActions ∧
            focus = .gross_motor))))) ∧
    (∀ (label : String) (el : EnvironmentElement) (age : Nat) (meta : SafetyMetadata),
      meta.useSafeAlternativesOnly = true →
      ObjectSafetyClass.elevated_unstable ∉ meta.classes →
      isActivitySafe label .gross_motor el age meta = true ∧
      isActivitySafe label .sensory_regulation el age meta = true) := by
  constructor
  · intro label focus el age meta
    cases focus <;>
      simp only [isActivitySafe, focusImpliesForce] <;>
      split_ifs <;> simp_all
  · intro label el age meta h1 h2
    constructor <;> simp [isActivitySafe, focusImpliesForce, h2]

/-- Witness for C2 at a concrete input: on a safe-alternatives-only,
non-elevated sofa metadata, fine_motor is rejected while gross_motor and
sensory_regulation are accepted. -/
theorem c2_witness :
    isActivitySafe "sofa" .fine_motor
      ⟨"sofa", .central, .low, .stable, .spacious, .soft, [], [], [], none⟩ 5
      ⟨[.fixed_heavy_furniture], [.lift], [], true⟩ = false ∧
    isActivitySafe "sofa" .gross_motor
      ⟨"sofa", .central, .low, .stable, .spacious, .soft, [], [], [], none⟩ 5
      ⟨[.fixed_heavy_furniture], [.lift], [], true⟩ = true ∧
    isActivitySafe "sofa" .sensory_regulation
      ⟨"sofa", .central, .low, .stable, .spacious, .soft, [], [], [], none⟩ 5
      ⟨[.fixed_heavy_furniture], [.lift], [], true⟩ = true := by
  refine ⟨(c2_isActivitySafe_characterization.1 "sofa" .fine_motor _ 5 _).mpr
    (Or.inl ⟨rfl, by simp⟩), ?_, ?_⟩
  · exact (c2_isActivitySafe_characterization.2 "sofa" _ 5
      ⟨[.fixed_heavy_furniture], [.lift], [], true⟩ rfl (by decide)).1
  · exact (c2_isActivitySafe_characterization.2 "sofa" _ 5
      ⟨[.fixed_heavy_furniture], [.lift], [], true⟩ rfl (by decide)).2

/- ===== C3: validator preserves length and replaces in place ===== -/

theorem validateGo_length (elements : List EnvironmentElement) (age : Nat) :
    ∀ (acts result : List ActivityCandidate) (used : List String),
      (validateGo elements age acts result used).length = result.length + acts.length := by
  intro acts
  induction acts with
  | nil => intro result used; simp [validateGo]
  | cons a rest ih =>
    intro result used
    rw [validateGo, ih]
    simp
    omega

theorem processOne_origin (a : ActivityCandidate) (elements : List EnvironmentElement)
    (age : Nat) (used : List String) :
    processOne a elements age used = a ∨
    ((processOne a elements age used).objectLabel = a.objectLabel ∧
     (processOne a elements age used).element = a.element) ∨
    (processOne a elements age used).therapeuticFocus = a.therapeuticFocus := by
  unfold processOne
  split
  · left; rfl
  · split
    · right; left; exact ⟨rfl, rfl⟩
    · split
      · right; right; rfl
      · left; rfl

theorem validateGo_mem (elements : List EnvironmentElement) (age : Nat) :
    ∀ (acts result : List ActivityCandidate) (used : List String) (b : ActivityCandidate),
      b ∈ validateGo elements age acts result used →
      b ∈ result ∨ ∃ a ∈ acts, ∃ u, b = processOne a elements age u := by
  intro acts
  induction acts with
  | nil =>
    intro result used b hb
    left
    simpa [validateGo] using hb
  | cons a rest ih =>
    intro result used b hb
    rw [validateGo] at hb
    rcases ih _ _ b hb with h | ⟨a', ha', u, hu⟩
    · rcases List.mem_append.mp h with h' | h'
      · exact Or.inl h'
      · exact Or.inr ⟨a, List.mem_cons_self a rest, used, by simpa using h'⟩
    · exact Or.inr ⟨a', List.mem_cons_of_mem a ha', u, hu⟩

/-- C3: validateAndReplaceActivities returns a list of exactly the same length
as its input, and every output entry arises from an input candidate either
kept unchanged, or replaced on the same element (safe-focus substitution), or
replaced with the same focus on another element; no candidate is dropped. -/
theorem c3_validator_length_preserved :
    (∀ (acts : List ActivityCandidate) (elements : List EnvironmentElement) (age : Nat),
      (validateAndReplaceActivities acts elements age).length = acts.length) ∧
    (∀ (acts : List ActivityCandidate) (elements : List EnvironmentElement) (age : Nat)
        (b : ActivityCandidate), b ∈ validateAndReplaceActivities acts elements age →
      ∃ a ∈ acts, b = a ∨
        (b.objectLabel = a.objectLabel ∧ b.element = a.element) ∨
        b.therapeuticFocus = a.therapeuticFocus) := by
  constructor
  · intro acts elements age
    rw [validateAndReplaceActivities, validateGo_length]
    simp
  · intro acts elements age b hb
    rcases validateGo_mem elements age acts [] [] b hb with h | ⟨a, ha, u, hu⟩
    · simp at h
    · refine ⟨a, ha, ?_⟩
      rw [hu]
      exact processOne_origin a elements age u

/-- Witness for C3 at a concrete input: a single safe candidate is kept and
the output length equals the input length. -/
theorem c3_witness :
    (validateAndReplaceActivities
      [⟨"ball", .gross_motor, ⟨"ball", .central, .floor, .mobile, .spacious, .smooth,
        [.gross_motor], [.tactile], [], none⟩⟩] [] 5).length = 1 ∧
    ∃ a ∈ [(⟨"ball", .gross_motor, ⟨"ball", .central, .floor, .mobile, .spacious, .smooth,
        [.gross_motor], [.tactile], [], none⟩⟩ : ActivityCandidate)],
      (⟨"ball", .gross_motor, ⟨"ball", .central, .floor, .mobile, .spacious, .smooth,
        [.gross_motor], [.tactile], [], none⟩⟩ : ActivityCandidate) = a ∨
        ((⟨"ball", .gross_motor, ⟨"ball", .central, .floor, .mobile, .spacious, .smooth,
          [.gross_motor], [.tactile], [], none⟩⟩ : ActivityCandidate).objectLabel = a.objectLabel ∧
         (⟨"ball", .gross_motor, ⟨"ball", .central, .floor, .mobile, .spacious, .smooth,
          [.gross_motor], [.tactile], [], none⟩⟩ : ActivityCandidate).element = a.element) ∨
        (⟨"ball", .gross_motor, ⟨"ball", .central, .floor, .mobile, .spacious, .smooth,
          [.gross_motor], [.tactile], [], none⟩⟩ : ActivityCandidate).therapeuticFocus = a.therapeuticFocus := by
  refine ⟨c3_validator_length_preserved.1 _ [] 5, ?_⟩
  exact c3_validator_length_preserved.2 _ [] 5 _ (by decide)

/- ===== C4: the detection filter of the route handler ===== -/

/-- C4 amended: the detection-filter stage keeps exactly the detections whose
class name (lowercased) contains no person/body-part keyword, as an
order-preserving sublist of its input; it applies no confidence threshold, no
minimum-count backfill and no confidence sort. -/
theorem c4_amended_filter_characterization :
    ∀ (ps : List RawPrediction),
      (filteredPredictions ps).Sublist ps ∧
      ∀ p, p ∈ filteredPredictions ps ↔
        p ∈ ps ∧ containsForbiddenKeyword p.className = false := by
  intro ps
  refine ⟨List.filter_sublist ps, ?_⟩
  intro p
  simp [filteredPredictions, List.mem_filter]

/-- The concrete detection list refuting C4 as stated: one below-threshold
detection listed first, three at 0.9. -/
def c4preds : List RawPrediction :=
  [⟨"ball", 1/10⟩, ⟨"chair", 9/10⟩, ⟨"table", 9/10⟩, ⟨"sofa", 9/10⟩]

/-- C4 counterexample: three detections sit at or above the 0.25 threshold, so
the claimed backfill clause is inactive, yet the filter keeps the 0.1
detection and leaves it first (the output equals the input, so it is neither
thresholded nor sorted by descending confidence). -/
theorem c4_counterexample :
    filteredPredictions c4preds = c4preds ∧
    c4preds.map (fun p => p.probability) = [1/10, 9/10, 9/10, 9/10] ∧
    ((1 : ℚ)/10 < 1/4) ∧ ((1 : ℚ)/4 ≤ 9/10) := by
  refine ⟨rfl, rfl, by norm_num, by norm_num⟩

/- ===== C8: the diversity reorder ===== -/

theorem extractFirst_perm {α : Type} (p : α → Bool) :
    ∀ (l : List α) (c : α) (rest : List α),
      extractFirst p l = some (c, rest) → l.Perm (c :: rest) := by
  intro l
  induction l with
  | nil => intro c rest h; simp [extractFirst] at h
  | cons x xs ih =>
    intro c rest h
    rw [extractFirst] at h
    split at h
    · rw [Option.some.injEq, Prod.mk.injEq] at h
      obtain ⟨rfl, rfl⟩ := h
      exact List.Perm.refl _
    · split at h
      · rename_i c' rest' heq
        rw [Option.some.injEq, Prod.mk.injEq] at h
        obtain ⟨rfl, rfl⟩ := h
        exact (List.Perm.cons x (ih c' rest' heq)).trans (List.Perm.swap c' x rest')
      · exact absurd h (by simp)

theorem diversityGo_perm :
    ∀ (fuel : Nat) (out rem : List RefinedActivity),
      rem.length ≤ fuel → (diversityGo fuel out rem).Perm (out ++ rem) := by
  intro fuel
  induction fuel with
  | zero =>
    intro out rem h
    have : rem = [] := List.eq_nil_of_length_eq_zero (Nat.le_zero.mp h)
    subst this
    simp [diversityGo]
  | succ n ih =>
    intro out rem h
    cases rem with
    | nil => simp [diversityGo]
    | cons r rs =>
      rw [diversityGo]
      have hrs : rs.length ≤ n := Nat.succ_le_succ_iff.mp h
      split
      · have := ih (out ++ [r]) rs hrs
        rwa [List.append_assoc, List.singleton_append] at this
      · split
        · rename_i l _ c rest he
          have hp : (r :: rs).Perm (c :: rest) := extractFirst_perm _ _ c rest he
          have hlen : rest.length ≤ n := by
            have := hp.length_eq
            simp at this
            omega
          have h1 := ih (out ++ [c]) rest hlen
          rw [List.append_assoc, List.singleton_append] at h1
          exact h1.trans (List.Perm.append_left out hp.symm)
        · have := ih (out ++ [r]) rs hrs
          rwa [List.append_assoc, List.singleton_append] at this

/-- C8 amended: enforceDiversityOrder returns a permutation of its input; the
greedy pass avoids placing two structurally similar activities next to each
other only when some remaining activity differs from the last placed one, and
it can leave a similar adjacency even when an avoiding permutation exists. -/
theorem c8_amended_diversity_perm :
    ∀ (acts : List RefinedActivity), (enforceDiversityOrder acts).Perm acts := by
  intro acts
  rw [enforceDiversityOrder]
  split
  · exact List.Perm.refl _
  · simpa using diversityGo_perm acts.length [] acts (le_refl _)

/-- Element record with default field values used by concrete
counterexamples. -/
def defaultElement : EnvironmentElement :=
  ⟨"", .central, .mid, .stable, .spacious, .unknown, [], [], [], none⟩

/-- A refined activity carrying the given focus on the default element. -/
def c8Activity (f : TherapeuticFocus) : RefinedActivity :=
  ⟨"x", f, defaultElement, none, none⟩

/-- All adjacent output pairs differ in category or demand. -/
def adjacentOk (l : List RefinedActivity) : Bool :=
  (l.zip l.tail).all (fun pc => !(areStructurallySimilar pc.1 pc.2))

/-- Concrete input on which the greedy reorder fails: focus multiset
three sensory_regulation, two motor_planning, one fine_motor, listed in the
order motor_planning, fine_motor, sensory_regulation, motor_planning,
sensory_regulation, sensory_regulation. -/
def c8Acts : List RefinedActivity :=
  [c8Activity .motor_planning, c8Activity .fine_motor, c8Activity .sensory_regulation,
   c8Activity .motor_planning, c8Activity .sensory_regulation, c8Activity .sensory_regulation]

/-- An adjacency-free permutation of the same activities. -/
def c8Good : List RefinedActivity :=
  [c8Activity .sensory_regulation, c8Activity .motor_planning, c8Activity .sensory_regulation,
   c8Activity .motor_planning, c8Activity .sensory_regulation, c8Activity .fine_motor]

/-- C8 counterexample: the greedy reorder leaves two structurally similar
activities adjacent although a permutation of the input avoiding every such
adjacency exists. -/
theorem c8_counterexample :
    adjacentOk (enforceDiversityOrder c8Acts) = false ∧
    c8Good.Perm c8Acts ∧ adjacentOk c8Good = true := by decide

/- ===== C1: the safety invariant over the full pipeline ===== -/

theorem processOne_safeAlt (a : ActivityCandidate) (elements : List EnvironmentElement)
    (age : Nat) (used : List String) :
    useSafeAltOf (processOne a elements age used).element = true →
    (processOne a elements age used).therapeuticFocus ∈
      [TherapeuticFocus.sensory_regulation, .gross_motor] ∨
    processOne a elements age used = a := by
  unfold processOne
  split
  · intro _; right; rfl
  · split
    · rename_i focus hfind
      intro hsafe
      left
      rw [tier1Search] at hfind
      have hmem : focus ∈ safeFocusesFor (getSafetyMetadata a.element) :=
        List.mem_of_find?_eq_some hfind
      have hu : ((getSafetyMetadata a.element).map (fun m => m.useSafeAlternativesOnly)).getD false = true :=
        hsafe
      rw [safeFocusesFor, if_pos hu] at hmem
      exact hmem
    · split
      · rename_i el hfind
        intro hsafe
        exfalso
        rw [tier2Search] at hfind
        have hp := List.find?_some hfind
        have hsafe' : useSafeAltOf el = true := hsafe
        split_ifs at hp
      · intro _; right; rfl

/-- C1 amended: after validateAndReplaceActivities, every candidate whose
element carries useSafeAlternativesOnly metadata either has its focus in the
safe pair (sensory_regulation, gross_motor) or is one of the input candidates
kept unchanged (a tier-3 keep or an already-safe keep). -/
theorem c1_amended_validator_focus :
    ∀ (acts : List ActivityCandidate) (elements : List EnvironmentElement) (age : Nat)
      (b : ActivityCandidate), b ∈ validateAndReplaceActivities acts elements age →
      useSafeAltOf b.element = true →
      b.therapeuticFocus ∈ [TherapeuticFocus.sensory_regulation, .gross_motor] ∨ b ∈ acts := by
  intro acts elements age b hb hu
  rcases validateGo_mem elements age acts [] [] b hb with h | ⟨a, ha, u, rfl⟩
  · simp at h
  · rcases processOne_safeAlt a elements age u hu with h | h
    · exact Or.inl h
    · rw [h]; exact Or.inr ha

/-- Labels of the concrete C1 pipeline run (five distinct validated labels,
so the heavy "table" element is the fifth and gets constrained space). -/
def c1Labels : List String := ["ball", "pillow", "blanket", "cup", "table"]

/-- Elements of the concrete C1 run, enriched with safety metadata as the
route handler does. -/
def c1Elements : List EnvironmentElement :=
  enrichElementsWithSafety (analyzeEnvironment c1Labels)

/-- A shuffle outcome of DIVERSITY_BUCKETS for the concrete C1 run. -/
def c1PreferredOrder : List TherapeuticFocus :=
  [.fine_motor, .executive_function, .bilateral_coordination,
   .gross_motor, .sensory_regulation, .motor_planning]

/-- A shuffle outcome of the element list for the concrete C1 run (table
first). -/
def c1Shuffled : List EnvironmentElement :=
  [c1Elements.getD 4 defaultElement, c1Elements.getD 0 defaultElement,
   c1Elements.getD 1 defaultElement, c1Elements.getD 2 defaultElement,
   c1Elements.getD 3 defaultElement]

/-- Builder output of the concrete C1 run. -/
def c1Acts : List ActivityCandidate :=
  buildActivitiesFromEnvironment c1Elements 5 5 c1PreferredOrder c1Shuffled

/-- Validator output of the concrete C1 run. -/
def c1Validated : List ActivityCandidate := validateAndReplaceActivities c1Acts c1Elements 5

/-- Refiner output of the concrete C1 run. -/
def c1Refined : List RefinedActivity := refineActivities c1Validated c1Elements 5

/-- C1 counterexample: on the concrete pipeline run (with genuine shuffle
outcomes), every validated candidate is safe — so all three fallback tiers
never failed and no pairing was unreplaceable — yet the refiner's
constrained-space substitution rewrites a safe gross_motor pairing on the
safe-alternatives-only "table" element into fine_motor, so the final refined
list violates the claimed invariant. -/
theorem c1_counterexample :
    c1PreferredOrder.Perm DIVERSITY_BUCKETS ∧
    c1Shuffled.Perm c1Elements ∧
    (∀ b ∈ c1Validated, candidateIsSafe b 5 = true) ∧
    (∃ b ∈ c1Refined, useSafeAltOf b.element = true ∧
      b.therapeuticFocus = TherapeuticFocus.fine_motor ∧
      ¬ b.therapeuticFocus ∈ [TherapeuticFocus.sensory_regulation, .gross_motor]) := by
  decide

/-- Witness for the amended C1 theorem at a concrete input: an unsafe
(table, fine_motor) candidate is replaced by (table, sensory_regulation),
which the theorem places in the safe pair or among the inputs. -/
theorem c1_amended_witness :
    (⟨"table", TherapeuticFocus.sensory_regulation, c1Elements.getD 4 defaultElement⟩ : ActivityCandidate) ∈
      validateAndReplaceActivities
        [⟨"table", .fine_motor, c1Elements.getD 4 defaultElement⟩] c1Elements 5 ∧
    ((⟨"table", TherapeuticFocus.sensory_regulation, c1Elements.getD 4 defaultElement⟩ : ActivityCandidate).therapeuticFocus ∈
        [TherapeuticFocus.sensory_regulation, .gross_motor] ∨
      (⟨"table", TherapeuticFocus.sensory_regulation, c1Elements.getD 4 defaultElement⟩ : ActivityCandidate) ∈
        [(⟨"table", .fine_motor, c1Elements.getD 4 defaultElement⟩ : ActivityCandidate)]) := by
  refine ⟨by decide, ?_⟩
  exact c1_amended_validator_focus _ c1Elements 5 _ (by decide) (by decide)

/- ===== C10: the confidence re-check of validateDetectedElements ===== -/

theorem allowedRawGo_grow (res : List ReasonedElement) (age : Nat) :
    ∀ (ls acc : List String), acc ⊆ allowedRawGo res age ls acc := by
  intro ls
  induction ls with
  | nil => intro acc; rw [allowedRawGo]; exact fun _ h => h
  | cons l ls ih =>
    intro acc
    rw [allowedRawGo]
    split_ifs
    · exact ih acc
    · exact ih acc
    · exact ih acc
    · split
      · split_ifs
        · exact ih acc
        · exact fun y hy => ih (addIfAbsent l acc) ((addIfAbsent_mem y l acc).mpr (Or.inl hy))
      · exact fun y hy => ih (addIfAbsent l acc) ((addIfAbsent_mem y l acc).mpr (Or.inl hy))

theorem allowedRawGo_keeps (res : List ReasonedElement) (age : Nat) :
    ∀ (ls acc : List String) (l : String), l ∈ ls →
      matchesBlocklist (normalizeEV l) = false → matchesAllowlist l = true →
      excludedForAge l age = false → jsMapGet res l = none →
      l ∈ allowedRawGo res age ls acc := by
  intro ls
  induction ls with
  | nil => intro acc l h; simp at h
  | cons x ls ih =>
    intro acc l hmem hb ha hage hmap
    rw [allowedRawGo]
    rcases List.mem_cons.mp hmem with rfl | htail
    · simp only [hb, ha, hage, hmap, Bool.false_eq_true, Bool.true_eq_false, if_false,
        ite_false, ite_true]
      exact allowedRawGo_grow res age ls _ ((addIfAbsent_mem l l acc).mpr (Or.inr rfl))
    · split_ifs
      · exact ih acc l htail hb ha hage hmap
      · exact ih acc l htail hb ha hage hmap
      · exact ih acc l htail hb ha hage hmap
      · split
        · split_ifs
          · exact ih acc l htail hb ha hage hmap
          · exact ih (addIfAbsent x acc) l htail hb ha hage hmap
        · exact ih (addIfAbsent x acc) l htail hb ha hage hmap

theorem allowedRawGo_drops (res : List ReasonedElement) (age : Nat) :
    ∀ (ls acc : List String) (l : String) (re : ReasonedElement),
      jsMapGet res l = some re → re.confidenceAfterProcessing < 4/10 →
      l ∉ acc → l ∉ allowedRawGo res age ls acc := by
  intro ls
  induction ls with
  | nil => intro acc l re hmap hc hacc; rw [allowedRawGo]; exact hacc
  | cons x ls ih =>
    intro acc l re hmap hc hacc
    rw [allowedRawGo]
    by_cases hx : x = l
    · subst hx
      split_ifs
      · exact ih acc x re hmap hc hacc
      · exact ih acc x re hmap hc hacc
      · exact ih acc x re hmap hc hacc
      · simp only [hmap]
        rw [if_pos hc]
        exact ih acc x re hmap hc hacc
    · have hacc' : l ∉ addIfAbsent x acc := by
        intro h
        rcases (addIfAbsent_mem l x acc).mp h with h' | h'
        · exact hacc h'
        · exact hx h'.symm
      split_ifs
      · exact ih acc l re hmap hc hacc
      · exact ih acc l re hmap hc hacc
      · exact ih acc l re hmap hc hacc
      · split
        · split_ifs
          · exact ih acc l re hmap hc hacc
          · exact ih (addIfAbsent x acc) l re hmap hc hacc'
        · exact ih (addIfAbsent x acc) l re hmap hc hacc'

/-- C10: the 0.4 minimum-confidence re-check of validateDetectedElements
applies only to labels that have a matching ReasonedElement: a label passing
the blocklist, allowlist and age checks with no matching ReasonedElement is
kept with no confidence check at all; a label whose matching ReasonedElement
sits below 0.4 is dropped; and on a concrete input the returned labels list
contains a label with no counterpart in the returned reasonedElements list,
the two lists having different lengths. -/
theorem c10_confidence_check_only_with_counterpart :
    (∀ (labels : List String) (res : List ReasonedElement) (age : Nat) (l : String),
      l ∈ labels → matchesBlocklist (normalizeEV l) = false → matchesAllowlist l = true →
      excludedForAge l age = false → jsMapGet res l = none →
      l ∈ allowedRawGo res age labels []) ∧
    (∀ (labels : List String) (res : List ReasonedElement) (age : Nat) (l : String)
        (re : ReasonedElement),
      jsMapGet res l = some re → re.confidenceAfterProcessing < 4/10 →
      l ∉ allowedRawGo res age labels []) ∧
    (validateDetectedElements ["couch"] [] 5 = ⟨["couch"], []⟩ ∧
      (validateDetectedElements ["couch"] [] 5).labels.length ≠
        (validateDetectedElements ["couch"] [] 5).reasonedElements.length) := by
  refine ⟨?_, ?_, by decide, by decide⟩
  · intro labels res age l hmem hb ha hage hmap
    exact allowedRawGo_keeps res age labels [] l hmem hb ha hage hmap
  · intro labels res age l re hmap hc
    exact allowedRawGo_drops res age labels [] l re hmap hc (by simp)

/-- Witness for C10 at concrete inputs: "couch" with no ReasonedElement is
kept with no confidence check, while "chair" with a 0.2-confidence
ReasonedElement is dropped by the re-check. -/
theorem c10_witness :
    "couch" ∈ allowedRawGo [] 5 ["couch"] [] ∧
    "chair" ∉ allowedRawGo [⟨"chair", "كرسي", fcSeating, ".", 1/5⟩] 5 ["chair"] [] := by
  constructor
  · exact c10_confidence_check_only_with_counterpart.1 ["couch"] [] 5 "couch"
      (by decide) (by decide) (by decide) (by decide) rfl
  · exact c10_confidence_check_only_with_counterpart.2.1 ["chair"]
      [⟨"chair", "كرسي", fcSeating, ".", 1/5⟩] 5 "chair" ⟨"chair", "كرسي", fcSeating, ".", 1/5⟩
      rfl (by norm_num)

/- ===== C6: no duplicate (objectLabel, therapeuticFocus) pairs ===== -/

/-- Dedup key of an activity candidate, as the builder computes it. -/
def actKey (a : ActivityCandidate) : String := pairKey a.objectLabel a.therapeuticFocus

theorem buildSearchGo_spec (F po : List TherapeuticFocus) (keys : List String) :
    ∀ (se : List EnvironmentElement) (e : EnvironmentElement) (f : TherapeuticFocus),
      buildSearchGo F po keys se = some (e, f) →
      e ∈ se ∧ pickFocusForElement e F po = some f ∧ pairKey e.objectLabel f ∉ keys := by
  intro se
  induction se with
  | nil => intro e f h; simp [buildSearchGo] at h
  | cons x xs ih =>
    intro e f h
    rw [buildSearchGo] at h
    revert h
    split
    · rename_i f' hpick
      split_ifs with hkey
      · intro h
        obtain ⟨he, hp, hk⟩ := ih e f h
        exact ⟨List.mem_cons_of_mem x he, hp, hk⟩
      · intro h
        rw [Option.some.injEq, Prod.mk.injEq] at h
        obtain ⟨rfl, rfl⟩ := h
        exact ⟨List.mem_cons_self x xs, hpick, hkey⟩
    · intro h
      obtain ⟨he, hp, hk⟩ := ih e f h
      exact ⟨List.mem_cons_of_mem x he, hp, hk⟩

theorem buildSearchGo_head (F po : List TherapeuticFocus) (keys : List String)
    (e1 : EnvironmentElement) (rest : List EnvironmentElement) (f1 : TherapeuticFocus)
    (hpick : pickFocusForElement e1 F po = some f1)
    (hkey : pairKey e1.objectLabel f1 ∉ keys) :
    buildSearchGo F po keys (e1 :: rest) = some (e1, f1) := by
  rw [buildSearchGo]
  simp only [hpick]
  rw [if_neg hkey]

/-- The inductive property of the builder state: every recorded activity's key
is in the used-key set, and the recorded keys are pairwise distinct. -/
def BuildKeysOk (st : BuildState) : Prop :=
  (∀ a ∈ st.activities, actKey a ∈ st.usedKeys) ∧ (st.activities.map actKey).Nodup

theorem buildStep_keysOk (se : List EnvironmentElement) (po : List TherapeuticFocus)
    (st : BuildState) (h : BuildKeysOk st) : BuildKeysOk (buildStep se po st) := by
  rw [buildStep]
  split
  · rename_i e f hm
    obtain ⟨-, -, hkey⟩ := buildSearchGo_spec st.usedFocuses po st.usedKeys se e f hm
    constructor
    · intro a ha
      rcases List.mem_append.mp ha with h' | h'
      · exact (addIfAbsent_mem _ _ _).mpr (Or.inl (h.1 a h'))
      · simp only [List.mem_singleton] at h'
        subst h'
        exact (addIfAbsent_mem _ _ _).mpr (Or.inr rfl)
    · rw [List.map_append]
      rw [List.nodup_append]
      refine ⟨h.2, List.nodup_singleton _, ?_⟩
      intro k hk hk'
      simp only [List.map_cons, List.map_nil, List.mem_singleton] at hk'
      subst hk'
      obtain ⟨a, ha, hka⟩ := List.mem_map.mp hk
      have hmem : actKey a ∈ st.usedKeys := h.1 a ha
      rw [hka] at hmem
      exact hkey hmem
  · split
    · rename_i e f hm
      obtain ⟨-, -, hkey⟩ := buildSearchGo_spec [] po st.usedKeys se e f hm
      constructor
      · intro a ha
        rcases List.mem_append.mp ha with h' | h'
        · exact (addIfAbsent_mem _ _ _).mpr (Or.inl (h.1 a h'))
        · simp only [List.mem_singleton] at h'
          subst h'
          exact (addIfAbsent_mem _ _ _).mpr (Or.inr rfl)
      · rw [List.map_append]
        rw [List.nodup_append]
        refine ⟨h.2, List.nodup_singleton _, ?_⟩
        intro k hk hk'
        simp only [List.map_cons, List.map_nil, List.mem_singleton] at hk'
        subst hk'
        obtain ⟨a, ha, hka⟩ := List.mem_map.mp hk
        have hmem : actKey a ∈ st.usedKeys := h.1 a ha
        rw [hka] at hmem
        exact hkey hmem
    · exact h

theorem buildLoop_keysOk (se : List EnvironmentElement) (po : List TherapeuticFocus) :
    ∀ (n : Nat) (st : BuildState), BuildKeysOk st → BuildKeysOk (buildLoop se po n st) := by
  intro n
  induction n with
  | zero => intro st h; exact h
  | succ k ih => intro st h; exact ih _ (buildStep_keysOk se po st h)

/-- C6: for every element list, age, target count and every outcome of the
internal shuffles (quantified as arbitrary preferred-focus and element
orders), no two entries of the builder output share the same
(objectLabel, therapeuticFocus) pair. -/
theorem c6_no_duplicate_pairs :
    ∀ (elements : List EnvironmentElement) (age count : Nat)
      (po : List TherapeuticFocus) (se : List EnvironmentElement),
      ((buildActivitiesFromEnvironment elements age count po se).map
        (fun a => (a.objectLabel, a.therapeuticFocus))).Nodup := by
  intro elements age count po se
  rw [buildActivitiesFromEnvironment]
  split
  · simp
  · have h := buildLoop_keysOk se po
      (max 3 (min count (min 5 (min (elements.length * 2) ALL_THERAPEUTIC_FOCUSES.length))))
      ⟨[], [], []⟩ ⟨by intro a ha; simp at ha, by simp⟩
    have h2 := h.2
    have hrw : (buildLoop se po
        (max 3 (min count (min 5 (min (elements.length * 2) ALL_THERAPEUTIC_FOCUSES.length))))
        ⟨[], [], []⟩).activities.map actKey =
        ((buildLoop se po
        (max 3 (min count (min 5 (min (elements.length * 2) ALL_THERAPEUTIC_FOCUSES.length))))
        ⟨[], [], []⟩).activities.map
          (fun a => (a.objectLabel, a.therapeuticFocus))).map
          (fun p => pairKey p.1 p.2) := by
      rw [List.map_map]
      rfl
    rw [hrw] at h2
    exact List.Nodup.of_map _ h2

/- ===== C5: lower bound on the builder output ===== -/

theorem sep_determines :
    ∀ (xs ys zs ws : List Char), xs ++ '-' :: zs = ys ++ '-' :: ws →
      '-' ∉ xs → '-' ∉ ys → xs = ys ∧ zs = ws := by
  intro xs
  induction xs with
  | nil =>
    intro ys zs ws h hx hy
    cases ys with
    | nil => simpa using h
    | cons y ys' =>
      simp only [List.nil_append, List.cons_append, List.cons.injEq] at h
      exfalso
      apply hy
      rw [h.1]
      exact List.mem_cons_self y ys'
  | cons x xs' ih =>
    intro ys zs ws h hx hy
    cases ys with
    | nil =>
      simp only [List.nil_append, List.cons_append, List.cons.injEq] at h
      exfalso
      apply hx
      rw [h.1]
      exact List.mem_cons_self '-' xs'
    | cons y ys' =>
      simp only [List.cons_append, List.cons.injEq] at h
      obtain ⟨rfl, h2⟩ := h
      have hx' : '-' ∉ xs' := fun hc => hx (List.mem_cons_of_mem _ hc)
      have hy' : '-' ∉ ys' := fun hc => hy (List.mem_cons_of_mem _ hc)
      obtain ⟨rfl, rfl⟩ := ih ys' zs ws h2 hx' hy'
      exact ⟨rfl, rfl⟩

theorem focusName_no_dash : ∀ f : TherapeuticFocus, '-' ∉ (focusName f).data := by
  intro f
  cases f <;> decide

theorem focusName_inj :
    ∀ f f' : TherapeuticFocus, focusName f = focusName f' → f = f' := by
  intro f f'
  cases f <;> cases f' <;> first
    | (intro _; rfl)
    | (intro h; exact absurd h (by decide))

theorem pairKey_focus_inj (l l' : String) (f f' : TherapeuticFocus) :
    pairKey l f = pairKey l' f' → f = f' := by
  intro h
  have hd : (l.data ++ '-' :: (focusName f).data) = (l'.data ++ '-' :: (focusName f').data) := by
    have := congrArg String.data h
    simpa [pairKey, String.data_append] using this
  have hr : (focusName f).data.reverse ++ '-' :: l.data.reverse =
      (focusName f').data.reverse ++ '-' :: l'.data.reverse := by
    have := congrArg List.reverse hd
    simpa [List.reverse_append] using this
  have hx : '-' ∉ (focusName f).data.reverse := by
    rw [List.mem_reverse]; exact focusName_no_dash f
  have hy : '-' ∉ (focusName f').data.reverse := by
    rw [List.mem_reverse]; exact focusName_no_dash f'
  have := (sep_determines _ _ _ _ hr hx hy).1
  have hdata : (focusName f).data = (focusName f').data := by
    have := congrArg List.reverse this
    simpa using this
  apply focusName_inj
  cases hfe : focusName f
  cases hfe' : focusName f'
  simp_all

theorem pickFocusForElement_spec (e : EnvironmentElement)
    (F po : List TherapeuticFocus) (f : TherapeuticFocus) :
    pickFocusForElement e F po = some f →
    f ∈ (if e.motor ≠ [] then e.motor else ALL_THERAPEUTIC_FOCUSES) ∧ f ∉ F := by
  intro h
  simp only [pickFocusForElement] at h
  revert h
  split
  · rename_i f' hfind
    intro h
    rw [Option.some.injEq] at h
    subst h
    have := List.find?_some hfind
    simp only [Bool.and_eq_true, decide_eq_true_eq, Bool.not_eq_true', decide_eq_false_iff_not] at this
    exact this
  · intro h
    refine ⟨List.mem_of_find?_eq_some h, ?_⟩
    have := List.find?_some h
    simpa using this

theorem pickFocusForElement_total (e : EnvironmentElement)
    (F po : List TherapeuticFocus)
    (hex : ∃ f, f ∈ (if e.motor ≠ [] then e.motor else ALL_THERAPEUTIC_FOCUSES) ∧ f ∉ F) :
    ∃ f, pickFocusForElement e F po = some f := by
  simp only [pickFocusForElement]
  split
  · exact ⟨_, rfl⟩
  · obtain ⟨f, hf, hnf⟩ := hex
    have hs : ((if e.motor ≠ [] then e.motor else ALL_THERAPEUTIC_FOCUSES).find?
        (fun g => !(decide (g ∈ F)))).isSome := by
      rw [List.find?_isSome]
      exact ⟨f, hf, by simpa using hnf⟩
    obtain ⟨g, hg⟩ := Option.isSome_iff_exists.mp hs
    exact ⟨g, hg⟩

theorem exists_focus_not_used (allowed used : List TherapeuticFocus)
    (hcard : 3 ≤ allowed.toFinset.card) (hused : used.length < 3) :
    ∃ f, f ∈ allowed ∧ f ∉ used := by
  by_contra hc
  push_neg at hc
  have hsub : allowed.toFinset ⊆ used.toFinset := by
    intro f hf
    rw [List.mem_toFinset] at hf ⊢
    exact hc f hf
  have h1 := Finset.card_le_card hsub
  have h2 := used.toFinset_card_le
  omega

/-- Invariant of the builder state used for the lower bound: every used key is
the key of some pair whose focus is a used focus. -/
def KeysFocusInv (st : BuildState) : Prop :=
  ∀ k ∈ st.usedKeys, ∃ l f, k = pairKey l f ∧ f ∈ st.usedFocuses

theorem buildStep_success (se : List EnvironmentElement) (po : List TherapeuticFocus)
    (st : BuildState) (e1 : EnvironmentElement) (rest : List EnvironmentElement)
    (hse : se = e1 :: rest) (hm : 3 ≤ e1.motor.toFinset.card)
    (hinv : KeysFocusInv st) (hcard : st.usedFocuses.length < 3) :
    (buildStep se po st).activities.length = st.activities.length + 1 ∧
    (buildStep se po st).usedFocuses.length = st.usedFocuses.length + 1 ∧
    KeysFocusInv (buildStep se po st) := by
  have hcard' : 3 ≤ (if e1.motor ≠ [] then e1.motor else ALL_THERAPEUTIC_FOCUSES).toFinset.card := by
    split
    · exact hm
    · decide
  obtain ⟨f0, hf0a, hf0u⟩ := exists_focus_not_used _ st.usedFocuses hcard' hcard
  obtain ⟨f1, hpick⟩ := pickFocusForElement_total e1 st.usedFocuses po ⟨f0, hf0a, hf0u⟩
  have hspec := pickFocusForElement_spec e1 st.usedFocuses po f1 hpick
  have hkey : pairKey e1.objectLabel f1 ∉ st.usedKeys := by
    intro hk
    obtain ⟨l, f, hkeq, hf⟩ := hinv _ hk
    have : f1 = f := pairKey_focus_inj e1.objectLabel l f1 f hkeq
    exact hspec.2 (this ▸ hf)
  have hmain : buildMainSearch se po st = some (e1, f1) := by
    rw [hse, buildMainSearch]
    exact buildSearchGo_head st.usedFocuses po st.usedKeys e1 rest f1 hpick hkey
  rw [buildStep]
  simp only [hmain]
  refine ⟨by simp, ?_, ?_⟩
  · rw [addIfAbsent, if_neg hspec.2]
    simp
  · intro k hk
    rcases (addIfAbsent_mem k (pairKey e1.objectLabel f1) st.usedKeys).mp hk with h' | h'
    · obtain ⟨l, f, hkeq, hf⟩ := hinv _ h'
      exact ⟨l, f, hkeq, (addIfAbsent_mem f f1 st.usedFocuses).mpr (Or.inl hf)⟩
    · exact ⟨e1.objectLabel, f1, h', (addIfAbsent_mem f1 f1 st.usedFocuses).mpr (Or.inr rfl)⟩

theorem buildStep_len_mono (se : List EnvironmentElement) (po : List TherapeuticFocus)
    (st : BuildState) : st.activities.length ≤ (buildStep se po st).activities.length := by
  rw [buildStep]
  split
  · simp
  · split
    · simp
    · exact le_refl _

theorem buildLoop_len_mono (se : List EnvironmentElement) (po : List TherapeuticFocus) :
    ∀ (n : Nat) (st : BuildState),
      st.activities.length ≤ (buildLoop se po n st).activities.length := by
  intro n
  induction n with
  | zero => intro st; exact le_refl _
  | succ k ih => intro st; exact le_trans (buildStep_len_mono se po st) (ih _)

/-- C5 amended: when the element list is non-empty and every element carries
at least three distinct motor affordances (as every element produced by
analyzeEnvironment does), the builder returns at least min(target, 3)
activities, for every shuffle outcome. -/
theorem c5_amended_min_count :
    ∀ (elements : List EnvironmentElement) (age count : Nat)
      (po : List TherapeuticFocus) (se : List EnvironmentElement),
      elements ≠ [] → se.Perm elements →
      (∀ e ∈ elements, 3 ≤ e.motor.toFinset.card) →
      min count 3 ≤ (buildActivitiesFromEnvironment elements age count po se).length := by
  intro elements age count po se hne hperm hmot
  rw [buildActivitiesFromEnvironment, if_neg hne]
  obtain ⟨e1, rest, hse⟩ : ∃ e1 rest, se = e1 :: rest := by
    cases hsecase : se with
    | nil =>
      exfalso
      exact hne (List.Perm.eq_nil ((hsecase ▸ hperm).symm))
    | cons e1 rest => exact ⟨e1, rest, rfl⟩
  have hm1 : 3 ≤ e1.motor.toFinset.card := by
    apply hmot
    rw [← hperm.mem_iff]
    rw [hse]
    exact List.mem_cons_self e1 rest
  have ht3 : 3 ≤ max 3 (min count (min 5 (min (elements.length * 2) ALL_THERAPEUTIC_FOCUSES.length))) :=
    le_max_left _ _
  obtain ⟨m, hm⟩ : ∃ m, max 3 (min count (min 5 (min (elements.length * 2) ALL_THERAPEUTIC_FOCUSES.length))) = m + 3 :=
    ⟨max 3 (min count (min 5 (min (elements.length * 2) ALL_THERAPEUTIC_FOCUSES.length))) - 3, by omega⟩
  rw [hm]
  show min count 3 ≤ (buildLoop se po (m + 3) ⟨[], [], []⟩).activities.length
  have h0 : KeysFocusInv ⟨[], [], []⟩ := by intro k hk; simp at hk
  have s1 := buildStep_success se po ⟨[], [], []⟩ e1 rest hse hm1 h0 (by simp)
  have s2 := buildStep_success se po (buildStep se po ⟨[], [], []⟩) e1 rest hse hm1 s1.2.2
    (by rw [s1.2.1]; simp)
  have s3 := buildStep_success se po (buildStep se po (buildStep se po ⟨[], [], []⟩)) e1 rest hse hm1 s2.2.2
    (by rw [s2.2.1, s1.2.1]; simp)
  have hunroll : ∀ st, buildLoop se po (m + 3) st =
      buildLoop se po m (buildStep se po (buildStep se po (buildStep se po st))) := by
    intro st; rfl
  rw [hunroll]
  have hlen3 : (buildStep se po (buildStep se po (buildStep se po ⟨[], [], []⟩))).activities.length = 3 := by
    rw [s3.1, s2.1, s1.1]
    rfl
  have hfinal := buildLoop_len_mono se po m (buildStep se po (buildStep se po (buildStep se po ⟨[], [], []⟩)))
  rw [hlen3] at hfinal
  exact le_trans (min_le_right count 3) hfinal

/-- Concrete single-sofa element list for the C5 counterexample. -/
def c5Elements : List EnvironmentElement :=
  enrichElementsWithSafety (analyzeEnvironment ["sofa"])

/-- C5 counterexample: a lone sofa element has a non-empty affordance list
(gross_motor and sensory_regulation), yet the builder produces only 2
activities where the claim demands min(5, 3) = 3: with one element and two
affordances no third distinct (label, focus) pair can be formed. -/
theorem c5_counterexample :
    c5Elements ≠ [] ∧ (∀ e ∈ c5Elements, e.motor ≠ []) ∧
    (buildActivitiesFromEnvironment c5Elements 5 5 DIVERSITY_BUCKETS c5Elements).length = 2 ∧
    2 < min 5 3 := by decide

/-- Concrete single-cup element list (default affordance triad) for the C5
amended witness. -/
def c5CupElements : List EnvironmentElement :=
  enrichElementsWithSafety (analyzeEnvironment ["cup"])

/-- Witness for the amended C5 theorem at a concrete input: one element with
the three-focus default triad yields at least min(5, 3) activities. -/
theorem c5_amended_witness :
    c5CupElements ≠ [] ∧ (∀ e ∈ c5CupElements, 3 ≤ e.motor.toFinset.card) ∧
    min 5 3 ≤ (buildActivitiesFromEnvironment c5CupElements 5 5 DIVERSITY_BUCKETS c5CupElements).length := by
  refine ⟨by decide, by decide, ?_⟩
  exact c5_amended_min_count c5CupElements 5 5 DIVERSITY_BUCKETS c5CupElements
    (by decide) (List.Perm.refl _) (by decide)

/- ===== C7: confidence formula and threshold of reasonOverDetections ===== -/

theorem interpretOne_rawLabel (cn : String) (prob : ℚ) (el : ReasonedElement)
    (h : interpretOne cn prob = some el) : el.rawLabel = cn := by
  simp only [interpretOne] at h
  split_ifs at h
  all_goals
    revert h
    split
    all_goals intro h
    all_goals try exact Option.noConfusion h
    all_goals rw [Option.some.injEq] at h
    all_goals rw [← h]
  all_goals rfl

theorem interpretOne_curated_conf (cn : String) (prob : ℚ) (el : ReasonedElement)
    (hm : matchesCuratedTable cn = true) (h : interpretOne cn prob = some el) :
    el.confidenceAfterProcessing =
      min 1 (jsRound2 (prob * (6/10) + relevanceWeight (normAI cn) * (4/10))) := by
  rw [matchesCuratedTable] at hm
  obtain ⟨interp, hfc⟩ := Option.isSome_iff_exists.mp hm
  simp only [interpretOne, hfc] at h
  split_ifs at h
  rw [Option.some.injEq] at h
  rw [← h]

theorem reasonGo_mem :
    ∀ (ps : List RawPrediction) (seen : List String) (el : ReasonedElement),
      el ∈ reasonGo ps seen →
      ∃ p ∈ ps, interpretOne p.className p.probability = some el ∧
        (35/100 : ℚ) ≤ el.confidenceAfterProcessing := by
  intro ps
  induction ps with
  | nil => intro seen el h; simp [reasonGo] at h
  | cons p ps ih =>
    intro seen el h
    simp only [reasonGo] at h
    by_cases hseen : normAI p.className ∈ seen
    · rw [if_pos hseen] at h
      obtain ⟨p', hp', hio, hc⟩ := ih seen el h
      exact ⟨p', List.mem_cons_of_mem p hp', hio, hc⟩
    · rw [if_neg hseen] at h
      cases hio : interpretOne p.className p.probability with
      | none =>
        simp only [hio] at h
        obtain ⟨p', hp', hio', hc⟩ := ih seen el h
        exact ⟨p', List.mem_cons_of_mem p hp', hio', hc⟩
      | some el' =>
        simp only [hio] at h
        by_cases hc : (35/100 : ℚ) ≤ el'.confidenceAfterProcessing
        · rw [if_pos hc] at h
          rcases List.mem_cons.mp h with rfl | htail
          · exact ⟨p, List.mem_cons_self p ps, hio, hc⟩
          · obtain ⟨p', hp', hio', hc'⟩ := ih _ el htail
            exact ⟨p', List.mem_cons_of_mem p hp', hio', hc'⟩
        · rw [if_neg hc] at h
          obtain ⟨p', hp', hio', hc'⟩ := ih seen el h
          exact ⟨p', List.mem_cons_of_mem p hp', hio', hc'⟩

/-- C7: every element of the reasoner output has confidence at least 0.35,
and every output element whose raw label matches the curated interpretation
table carries exactly the clamped rounded blend
min(1, round2(probability * 0.6 + relevanceWeight * 0.4)) of the probability
of a prediction bearing that label. -/
theorem c7_confidence_formula_and_threshold :
    ∀ (ps : List RawPrediction) (el : ReasonedElement),
      el ∈ reasonOverDetections ps →
      (35/100 : ℚ) ≤ el.confidenceAfterProcessing ∧
      (matchesCuratedTable el.rawLabel = true →
        ∃ p ∈ ps, p.className = el.rawLabel ∧
          el.confidenceAfterProcessing =
            min 1 (jsRound2 (p.probability * (6/10) +
              relevanceWeight (normAI p.className) * (4/10)))) := by
  intro ps el hel
  rw [reasonOverDetections, mem_stableSort] at hel
  obtain ⟨p, hp, hio, hc⟩ := reasonGo_mem ps [] el hel
  have hraw : el.rawLabel = p.className := interpretOne_rawLabel _ _ _ hio
  refine ⟨hc, ?_⟩
  intro hm
  rw [hraw] at hm
  exact ⟨p, hp, hraw.symm,
    interpretOne_curated_conf p.className p.probability el hm hio⟩

/-- The reasoned element produced for a couch detection at probability 0.9
(confidence min(1, round2(0.9 * 0.6 + 1 * 0.4)) = 0.94). -/
def c7CouchElement : ReasonedElement :=
  ⟨"couch", "كنبة منزلية", fcSeating,
   "عنصر جلوس مستقر يوفر دعمًا وضعيًا وفرصة للتنظيم الحسي والراحة.", 47/50⟩

theorem c7_couch_eval :
    interpretOne "couch" ((9:ℚ)/10) = some c7CouchElement := by
  have h1 : findCurated (jsRemoveAllWs (normAI "couch")) =
      some ⟨"couch", "كنبة منزلية", fcSeating,
        "عنصر جلوس مستقر يوفر دعمًا وضعيًا وفرصة للتنظيم الحسي والراحة."⟩ := by decide
  have h2 : relevanceWeight (normAI "couch") = 1 := by
    have hn : normAI "couch" = "couch" := by decide
    rw [hn]
    simp only [relevanceWeight]
    rw [if_neg (by decide), if_pos (by decide)]
  simp only [interpretOne, h1]
  rw [if_neg (by decide), if_neg (by decide), h2]
  simp only [c7CouchElement, Option.some.injEq, ReasonedElement.mk.injEq]
  norm_num [jsRound2]

theorem c7_couch_go :
    reasonGo [⟨"couch", (9:ℚ)/10⟩] [] = [c7CouchElement] := by
  simp only [reasonGo, c7_couch_eval]
  rw [if_neg (by simp), if_pos (by norm_num [c7CouchElement])]

theorem c7_couch_out :
    reasonOverDetections [⟨"couch", (9:ℚ)/10⟩] = [c7CouchElement] := by
  rw [reasonOverDetections, c7_couch_go]
  rfl

/-- Witness for C7 at a concrete input: the couch detection at 0.9 yields an
output element above the 0.35 threshold whose confidence is the clamped
rounded blend. -/
theorem c7_witness :
    (35/100 : ℚ) ≤ c7CouchElement.confidenceAfterProcessing ∧
    (matchesCuratedTable c7CouchElement.rawLabel = true →
      ∃ p ∈ [(⟨"couch", (9:ℚ)/10⟩ : RawPrediction)], p.className = c7CouchElement.rawLabel ∧
        c7CouchElement.confidenceAfterProcessing =
          min 1 (jsRound2 (p.probability * (6/10) +
            relevanceWeight (normAI p.className) * (4/10)))) := by
  exact c7_confidence_formula_and_threshold [⟨"couch", (9:ℚ)/10⟩] c7CouchElement
    (by rw [c7_couch_out]; exact List.mem_cons_self _ _)
